import Mathlib

/-!
Verification of the token-refresh coordination layer of the interview-coordinator
frontend: the axios request/response interceptors (frontend api module) and the
auth service token storage helpers.  The JavaScript runtime is single-threaded
and cooperative, so every synchronous block of the interceptor code is one
atomic step of the transition system modelled below; suspension happens only at
await points (the refresh call, the re-issued requests, and the queued
promises).
-/

/-- JS truthiness of a string-or-null value: null and the empty string are
falsy, every other string is truthy. -/
def truthy : Option String → Bool
  | none => false
  | some s => !(s == "")

/-- Does the character list start with the pattern list. -/
def listStartsWith : List Char → List Char → Bool
  | _, [] => true
  | [], _ :: _ => false
  | c :: cs, p :: ps => c == p && listStartsWith cs ps

/-- Does the character list contain the pattern list as a contiguous sublist. -/
def listContainsSub : List Char → List Char → Bool
  | [], pat => pat.isEmpty
  | c :: cs, pat => listStartsWith (c :: cs) pat || listContainsSub cs pat

/-- JS String.prototype.includes: substring containment anywhere in the string. -/
def includesSub (s pat : String) : Bool := listContainsSub s.toList pat.toList

/-- The browser storage visible to the code: localStorage and sessionStorage,
restricted to the two keys the code uses (access_token, refresh_token). -/
structure Storage where
  localAccess : Option String
  localRefresh : Option String
  sessionAccess : Option String
  sessionRefresh : Option String
deriving DecidableEq, Repr

/-- setTokens of the auth service: unconditionally overwrites both localStorage
values. -/
def setTokens (st : Storage) (access refresh : String) : Storage :=
  { st with localAccess := some access, localRefresh := some refresh }

/-- getAccessToken of the auth service: reads localStorage only. -/
def getAccessToken (st : Storage) : Option String := st.localAccess

/-- getRefreshToken of the auth service: reads localStorage only. -/
def getRefreshToken (st : Storage) : Option String := st.localRefresh

/-- clearTokens of the auth service: removes both keys from localStorage and,
defensively, from sessionStorage as well. -/
def clearTokens (_st : Storage) : Storage :=
  { localAccess := none, localRefresh := none,
    sessionAccess := none, sessionRefresh := none }

/-- An outgoing axios request descriptor, as far as the interceptors look at
it: the url, the Authorization header slot, and the custom mutable marker
field the response interceptor writes on the request it retries itself
(spelled underscore-retry in the source). -/
structure RequestConfig where
  url : String
  authHeader : Option String
  retryFlag : Bool
deriving DecidableEq, Repr

/-- The request-interceptor allow-list test: the url is an auth endpoint when
it contains one of the three fixed substrings. -/
def isAuthEndpoint (url : String) : Bool :=
  includesSub url "/auth/login" ||
  includesSub url "/auth/registration" ||
  includesSub url "/auth/token/refresh"

/-- The request interceptor: skip attachment on auth endpoints, otherwise
attach the stored access token as a bearer header when it is truthy. -/
def requestInterceptor (st : Storage) (config : RequestConfig) : RequestConfig :=
  if isAuthEndpoint config.url then config
  else
    match getAccessToken st with
    | some token =>
        if token == "" then config
        else { config with authHeader := some ("Bearer " ++ token) }
    | none => config

/-- The error object axios rejects with (an AxiosError instance).  Being a JS
object it is always truthy; the message distinguishes error identities. -/
structure AxiosError where
  message : String
deriving DecidableEq, Repr

/-- A settled failed request as it reaches the response error interceptor:
status is the HTTP status of error.response when a response exists, none for
a transport error (error.response undefined).  The tag keeps error identity
so that propagated-unchanged can be stated. -/
structure ApiError where
  status : Option Nat
  tag : String
deriving DecidableEq, Repr

/-- The body of a successful refresh response: response.data with fields
access and an optional rotated refresh token. -/
structure RefreshData where
  access : String
  refresh : Option String
deriving DecidableEq, Repr

/-- refreshAccessToken of the auth service.  The network call is abstracted as
its settled result; returns the value the function resolves with together with
the storage after the call.  Mirrors the source: early null return when the
stored refresh token is falsy; on success setTokens(access, newRefresh or
refresh); on failure clearTokens and null. -/
def refreshAccessToken (st : Storage)
    (call : String → Except AxiosError RefreshData) : Option String × Storage :=
  match getRefreshToken st with
  | none => (none, st)
  | some refresh =>
    if refresh == "" then (none, st)
    else
      match call refresh with
      | .ok d =>
          let newRefresh := d.refresh
          (some d.access,
            setTokens st d.access
              (if truthy newRefresh then newRefresh.getD "" else refresh))
      | .error _ => (none, clearTokens st)

/-- The outcome one caller of the api ultimately observes for its request. -/
inductive Outcome where
  /-- the error object was propagated to the caller unchanged -/
  | errPassthrough (e : ApiError)
  /-- the promise was rejected with the refresh failure -/
  | refreshFailed (e : AxiosError)
  /-- the re-issued request succeeded -/
  | ok
deriving DecidableEq, Repr

/-- Where one caller task currently stands. -/
inductive CallerPhase where
  /-- its request settled with error e; the error interceptor has not run yet -/
  | arrived (e : ApiError)
  /-- pushed onto failedQueue, suspended on the queue promise -/
  | queued
  /-- this task drives the refresh and awaits the refresh call -/
  | refreshing
  /-- its original request was re-issued and is awaiting a response -/
  | retrying
  /-- its queue promise was neither resolved nor rejected: suspended forever -/
  | stranded
  /-- finished with the given outcome -/
  | done (r : Outcome)
deriving DecidableEq, Repr

/-- One caller task: its (mutable) request descriptor and its phase. -/
structure CallerTask where
  config : RequestConfig
  phase : CallerPhase
deriving DecidableEq, Repr

/-- Observable events, recorded in order of occurrence. -/
inductive Event where
  /-- the refresh endpoint was called -/
  | refreshCallStarted
  /-- the new access token was written to storage -/
  | tokensStored (access : String)
  /-- task i re-issued its original request carrying the given header -/
  | retryIssued (i : Nat) (auth : Option String)
  /-- the queue entry of task i was rejected -/
  | queuedRejected (i : Nat)
  /-- all four storage slots were removed -/
  | storageCleared
  /-- window.location.href was set to the login route -/
  | redirectLogin
deriving DecidableEq, Repr

/-- The whole system: the module-level interceptor state (isRefreshing,
failedQueue), the browser storage, the tasks (identified by their list
index), the count of refresh-endpoint calls issued so far, the redirect
flag, and the event trace. -/
structure SysState where
  isRefreshing : Bool
  failedQueue : List Nat
  store : Storage
  tasks : List CallerTask
  refreshCalls : Nat
  redirected : Bool
  trace : List Event
deriving DecidableEq, Repr

/-- The synchronous prologue of the response error interceptor, run when the
request of task i settles with error e (part of the api module).  Faithful to
the source order: the 401-and-not-retried test, the auth-url early reject, the
isRefreshing check-and-push, else set the retry marker and isRefreshing in the
same synchronous step, read the refresh token, and either clear-and-redirect
(falsy token) or issue the single refresh call. -/
def responseErrorHandler (s : SysState) (i : Nat) (e : ApiError) : SysState :=
  match s.tasks[i]? with
  | none => s
  | some t =>
    if e.status == some 401 && !t.config.retryFlag then
      if includesSub t.config.url "/auth/" then
        { s with tasks := s.tasks.set i { t with phase := .done (.errPassthrough e) } }
      else if s.isRefreshing then
        { s with tasks := s.tasks.set i { t with phase := .queued },
                 failedQueue := s.failedQueue ++ [i] }
      else
        let cfg := { t.config with retryFlag := true }
        if truthy s.store.localRefresh then
          { s with isRefreshing := true,
                   tasks := s.tasks.set i { config := cfg, phase := .refreshing },
                   refreshCalls := s.refreshCalls + 1,
                   trace := s.trace ++ [.refreshCallStarted] }
        else
          { s with isRefreshing := false,
                   store := clearTokens s.store,
                   redirected := true,
                   tasks := s.tasks.set i { config := cfg, phase := .done (.errPassthrough e) },
                   trace := s.trace ++ [.storageCleared, .redirectLogin] }
    else
      { s with tasks := s.tasks.set i { t with phase := .done (.errPassthrough e) } }

/-- The then-continuation of one queued task when processQueue runs with a
null error: resolved (header set to the new bearer token and the original
request re-issued through the request interceptor) only when the token is
truthy; with a falsy token the queue promise is never settled and the task is
suspended forever. -/
def resumeQueued (access : String) (s : SysState) (j : Nat) : SysState :=
  match s.tasks[j]? with
  | none => s
  | some t =>
    if access == "" then
      { s with tasks := s.tasks.set j { t with phase := .stranded } }
    else
      let cfg := requestInterceptor s.store
        { t.config with authHeader := some ("Bearer " ++ access) }
      { s with tasks := s.tasks.set j { config := cfg, phase := .retrying },
               trace := s.trace ++ [.retryIssued j cfg.authHeader] }

/-- The catch-continuation of one queued task when processQueue runs with the
(always truthy) refresh error: the queue promise rejects and the caller
observes the refresh failure. -/
def rejectQueued (e : AxiosError) (s : SysState) (j : Nat) : SysState :=
  match s.tasks[j]? with
  | none => s
  | some t =>
    { s with tasks := s.tasks.set j { t with phase := .done (.refreshFailed e) },
             trace := s.trace ++ [.queuedRejected j] }

/-- The refresh call of driving task d settles successfully with body
{access, refresh}.  Source order: store the access token, conditionally store
the rotated refresh token, set the bearer header on the driver request,
processQueue(null, access), re-issue the driver request (through the request
interceptor), the finally block resets isRefreshing, and then the queued
then-continuations run in FIFO order as microtasks before any other event. -/
def settleRefreshOk (s : SysState) (d : Nat) (body : RefreshData) : SysState :=
  match s.tasks[d]? with
  | none => s
  | some t =>
    if t.phase == .refreshing then
      let store1 := { s.store with localAccess := some body.access }
      let store2 := if truthy body.refresh
        then { store1 with localRefresh := body.refresh } else store1
      let dcfg := requestInterceptor store2
        { t.config with authHeader := some ("Bearer " ++ body.access) }
      let s1 : SysState :=
        { s with store := store2,
                 tasks := s.tasks.set d { config := dcfg, phase := .retrying },
                 isRefreshing := false,
                 failedQueue := [],
                 trace := s.trace ++ [.tokensStored body.access,
                                      .retryIssued d dcfg.authHeader] }
      s.failedQueue.foldl (resumeQueued body.access) s1
    else s

/-- The refresh call of driving task d rejects with refreshError e.  Source
order: processQueue(refreshError, null) rejects every queued entry, all four
storage slots are removed, the redirect to the login route happens, the driver
promise rejects with the refresh error, and the finally block resets
isRefreshing. -/
def settleRefreshErr (s : SysState) (d : Nat) (e : AxiosError) : SysState :=
  match s.tasks[d]? with
  | none => s
  | some t =>
    if t.phase == .refreshing then
      let s1 := s.failedQueue.foldl (rejectQueued e) s
      { s1 with store := clearTokens s1.store,
                redirected := true,
                failedQueue := [],
                isRefreshing := false,
                tasks := s1.tasks.set d { t with phase := .done (.refreshFailed e) },
                trace := s1.trace ++ [.storageCleared, .redirectLogin] }
    else s

/-- A re-issued request of task i settles: success resolves the caller; any
error goes through the response error interceptor again. -/
def settleRetry (s : SysState) (i : Nat) (r : Except ApiError Unit) : SysState :=
  match s.tasks[i]? with
  | none => s
  | some t =>
    if t.phase == .retrying then
      match r with
      | .ok _ => { s with tasks := s.tasks.set i { t with phase := .done .ok } }
      | .error e => responseErrorHandler s i e
    else s

/-- A scheduler action: which pending event the single-threaded event loop
dispatches next. -/
inductive SchedAction where
  /-- the error response of an arrived task is dispatched to the interceptor -/
  | arrive (i : Nat)
  /-- the in-flight refresh call settles successfully -/
  | refreshOk (d : Nat) (body : RefreshData)
  /-- the in-flight refresh call rejects -/
  | refreshErr (d : Nat) (e : AxiosError)
  /-- the re-issued request of a retrying task settles -/
  | retrySettle (i : Nat) (r : Except ApiError Unit)
deriving Repr

/-- One atomic step of the event loop. -/
def step (s : SysState) (a : SchedAction) : SysState :=
  match a with
  | .arrive i =>
    match s.tasks[i]? with
    | some t =>
      match t.phase with
      | .arrived e => responseErrorHandler s i e
      | _ => s
    | none => s
  | .refreshOk d body => settleRefreshOk s d body
  | .refreshErr d e => settleRefreshErr s d e
  | .retrySettle i r => settleRetry s i r

/-- Run a whole schedule of actions. -/
def run (s : SysState) (acts : List SchedAction) : SysState := acts.foldl step s

/-- Is a task currently driving a refresh call (one in flight per such task). -/
def CallerPhase.isDriving : CallerPhase → Bool
  | .refreshing => true
  | _ => false

/-- Number of refresh calls currently in flight: the number of tasks awaiting
the refresh endpoint. -/
def countRefreshing (ts : List CallerTask) : Nat :=
  ts.countP (fun t => t.phase.isDriving)

/-- A canonical authentication-failure response (HTTP 401). -/
def err401 : ApiError := { status := some 401, tag := "unauthorized" }

/-- A fresh caller whose request to the given url has just settled with a
401 and has never been retried. -/
def freshCallerTask (url : String) : CallerTask :=
  { config := { url := url, authHeader := none, retryFlag := false },
    phase := .arrived err401 }

/-- The initial system: idle interceptor state, empty queue and trace, the
given storage, and one fresh 401-failed caller per url. -/
def initState (urls : List String) (st : Storage) : SysState :=
  { isRefreshing := false, failedQueue := [], store := st,
    tasks := urls.map freshCallerTask, refreshCalls := 0,
    redirected := false, trace := [] }

/-- A storage holding a (stale) access token and a valid refresh token. -/
def storeAB : Storage :=
  { localAccess := some "A1", localRefresh := some "R1",
    sessionAccess := none, sessionRefresh := none }

theorem countP_set_balance {α : Type} (p : α → Bool) :
    ∀ (l : List α) (i : Nat) (t t' : α), l[i]? = some t →
      (l.set i t').countP p + (if p t then 1 else 0) =
        l.countP p + (if p t' then 1 else 0) := by
  intro l
  induction l with
  | nil => intro i t t' h; simp at h
  | cons a as ih =>
    intro i t t' h
    cases i with
    | zero =>
      simp only [List.getElem?_cons_zero, Option.some.injEq] at h
      subst h
      simp only [List.set_cons_zero, List.countP_cons]
      omega
    | succ n =>
      simp only [List.getElem?_cons_succ] at h
      simp only [List.set_cons_succ, List.countP_cons]
      have := ih n t t' h
      omega

theorem countP_set_ff {α : Type} (p : α → Bool) {l : List α} {i : Nat}
    {t t' : α} (h : l[i]? = some t) (hp : p t = false) (hp' : p t' = false) :
    (l.set i t').countP p = l.countP p := by
  have := countP_set_balance p l i t t' h
  rw [hp, hp'] at this
  simp at this
  omega

theorem countP_set_ft {α : Type} (p : α → Bool) {l : List α} {i : Nat}
    {t t' : α} (h : l[i]? = some t) (hp : p t = false) (hp' : p t' = true) :
    (l.set i t').countP p = l.countP p + 1 := by
  have := countP_set_balance p l i t t' h
  rw [hp, hp'] at this
  simp at this
  omega

theorem countP_set_tf {α : Type} (p : α → Bool) {l : List α} {i : Nat}
    {t t' : α} (h : l[i]? = some t) (hp : p t = true) (hp' : p t' = false) :
    (l.set i t').countP p + 1 = l.countP p := by
  have := countP_set_balance p l i t t' h
  rw [hp, hp'] at this
  simp at this
  omega

theorem countP_set_le_of_false {α : Type} (p : α → Bool) (l : List α)
    (i : Nat) (t' : α) (hp' : p t' = false) :
    (l.set i t').countP p ≤ l.countP p := by
  cases h : l[i]? with
  | none =>
    have hlen : l.length ≤ i := by
      by_contra hlt
      push_neg at hlt
      rw [List.getElem?_eq_getElem hlt] at h
      exact Option.noConfusion h
    rw [List.set_eq_of_length_le hlen]
  | some t =>
    have := countP_set_balance p l i t t' h
    rw [hp'] at this
    simp at this
    omega

theorem step_arrive_eq_handler {s : SysState} {i : Nat} {t : CallerTask}
    {e : ApiError} (h : s.tasks[i]? = some t) (hp : t.phase = .arrived e) :
    step s (.arrive i) = responseErrorHandler s i e := by
  simp only [step, h, hp]

theorem handler_queue {s : SysState} {i : Nat} {t : CallerTask} {e : ApiError}
    (h : s.tasks[i]? = some t)
    (hst : e.status = some 401) (hrf : t.config.retryFlag = false)
    (hurl : includesSub t.config.url "/auth/" = false)
    (hR : s.isRefreshing = true) :
    responseErrorHandler s i e =
      { s with tasks := s.tasks.set i { t with phase := .queued },
               failedQueue := s.failedQueue ++ [i] } := by
  simp only [responseErrorHandler, h, hst, hrf, hurl, hR]
  simp

theorem handler_drive {s : SysState} {i : Nat} {t : CallerTask} {e : ApiError}
    (h : s.tasks[i]? = some t)
    (hst : e.status = some 401) (hrf : t.config.retryFlag = false)
    (hurl : includesSub t.config.url "/auth/" = false)
    (hR : s.isRefreshing = false)
    (htok : truthy s.store.localRefresh = true) :
    responseErrorHandler s i e =
      { s with isRefreshing := true,
               tasks := s.tasks.set i
                 { config := { t.config with retryFlag := true },
                   phase := .refreshing },
               refreshCalls := s.refreshCalls + 1,
               trace := s.trace ++ [.refreshCallStarted] } := by
  simp only [responseErrorHandler, h, hst, hrf, hurl, hR, htok]
  simp

theorem handler_noToken {s : SysState} {i : Nat} {t : CallerTask} {e : ApiError}
    (h : s.tasks[i]? = some t)
    (hst : e.status = some 401) (hrf : t.config.retryFlag = false)
    (hurl : includesSub t.config.url "/auth/" = false)
    (hR : s.isRefreshing = false)
    (htok : truthy s.store.localRefresh = false) :
    responseErrorHandler s i e =
      { s with isRefreshing := false,
               store := clearTokens s.store,
               redirected := true,
               tasks := s.tasks.set i
                 { config := { t.config with retryFlag := true },
                   phase := .done (.errPassthrough e) },
               trace := s.trace ++ [.storageCleared, .redirectLogin] } := by
  simp only [responseErrorHandler, h, hst, hrf, hurl, hR, htok]
  simp

theorem handler_passthrough {s : SysState} {i : Nat} {t : CallerTask}
    {e : ApiError} (h : s.tasks[i]? = some t)
    (hcond : e.status ≠ some 401 ∨ t.config.retryFlag = true) :
    responseErrorHandler s i e =
      { s with tasks := s.tasks.set i { t with phase := .done (.errPassthrough e) } } := by
  have : (e.status == some 401 && !t.config.retryFlag) = false := by
    rcases hcond with hc | hc
    · simp [beq_eq_false_iff_ne, hc]
    · simp [hc]
  simp only [responseErrorHandler, h, this]
  simp

theorem handler_authurl {s : SysState} {i : Nat} {t : CallerTask}
    {e : ApiError} (h : s.tasks[i]? = some t)
    (hst : e.status = some 401) (hrf : t.config.retryFlag = false)
    (hurl : includesSub t.config.url "/auth/" = true) :
    responseErrorHandler s i e =
      { s with tasks := s.tasks.set i { t with phase := .done (.errPassthrough e) } } := by
  simp only [responseErrorHandler, h, hst, hrf, hurl]
  simp

theorem requestInterceptor_bearer {st : Storage} {cfg : RequestConfig}
    {tok : String} (h : st.localAccess = some tok) (htok : (tok == "") = false)
    (hh : cfg.authHeader = some ("Bearer " ++ tok)) :
    requestInterceptor st cfg = cfg := by
  simp only [requestInterceptor, getAccessToken, h, htok]
  split
  · rfl
  · simp only [Bool.false_eq_true, if_false]
    cases cfg
    simp_all

theorem resumeQueued_eq {s : SysState} {j : Nat} {tj : CallerTask}
    {access : String} (h : s.tasks[j]? = some tj)
    (hacc : (access == "") = false)
    (hstore : s.store.localAccess = some access) :
    resumeQueued access s j =
      { s with
        tasks := s.tasks.set j
          { config := { tj.config with authHeader := some ("Bearer " ++ access) },
            phase := .retrying },
        trace := s.trace ++ [.retryIssued j (some ("Bearer " ++ access))] } := by
  have hb : requestInterceptor s.store
      { tj.config with authHeader := some ("Bearer " ++ access) } =
      { tj.config with authHeader := some ("Bearer " ++ access) } :=
    requestInterceptor_bearer hstore hacc rfl
  simp only [resumeQueued, h, hacc, hb]
  simp

theorem rejectQueued_eq {s : SysState} {j : Nat} {tj : CallerTask}
    {e : AxiosError} (h : s.tasks[j]? = some tj) :
    rejectQueued e s j =
      { s with
        tasks := s.tasks.set j { tj with phase := .done (.refreshFailed e) },
        trace := s.trace ++ [.queuedRejected j] } := by
  simp only [rejectQueued, h]

theorem resumeRun {access : String} (hacc : (access == "") = false) :
    ∀ (q : List Nat) (s : SysState), q.Nodup →
    s.store.localAccess = some access →
    (∀ j ∈ q, ∃ tj, s.tasks[j]? = some tj ∧ tj.phase = .queued) →
    ((q.foldl (resumeQueued access) s).isRefreshing = s.isRefreshing ∧
     (q.foldl (resumeQueued access) s).failedQueue = s.failedQueue ∧
     (q.foldl (resumeQueued access) s).store = s.store ∧
     (q.foldl (resumeQueued access) s).refreshCalls = s.refreshCalls ∧
     (q.foldl (resumeQueued access) s).redirected = s.redirected ∧
     (q.foldl (resumeQueued access) s).trace =
       s.trace ++ q.map (fun j => Event.retryIssued j (some ("Bearer " ++ access))) ∧
     (∀ k, k ∉ q → (q.foldl (resumeQueued access) s).tasks[k]? = s.tasks[k]?) ∧
     (∀ j ∈ q, ∃ tj, s.tasks[j]? = some tj ∧ tj.phase = .queued ∧
       (q.foldl (resumeQueued access) s).tasks[j]? =
         some { config := { tj.config with authHeader := some ("Bearer " ++ access) },
                phase := .retrying }) ∧
     countRefreshing (q.foldl (resumeQueued access) s).tasks =
       countRefreshing s.tasks) := by
  intro q
  induction q with
  | nil =>
    intro s _ _ _
    simp
  | cons j q' ih =>
    intro s hnd hstore hq
    obtain ⟨tj, htj, hqj⟩ := hq j (List.mem_cons_self j q')
    have hjq' : j ∉ q' := (List.nodup_cons.mp hnd).1
    have hstep := resumeQueued_eq htj hacc hstore
    have hlen : j < s.tasks.length := (List.getElem?_eq_some.mp htj).1
    set s' := resumeQueued access s j with hs'
    have hfields : s'.isRefreshing = s.isRefreshing ∧ s'.failedQueue = s.failedQueue ∧
        s'.store = s.store ∧ s'.refreshCalls = s.refreshCalls ∧
        s'.redirected = s.redirected ∧
        s'.trace = s.trace ++ [Event.retryIssued j (some ("Bearer " ++ access))] := by
      rw [hstep]
      exact ⟨rfl, rfl, rfl, rfl, rfl, rfl⟩
    have htasks_ne : ∀ k, k ≠ j → s'.tasks[k]? = s.tasks[k]? := by
      intro k hk
      rw [hstep]
      exact List.getElem?_set_ne (fun hh => hk hh.symm)
    have htasks_j : s'.tasks[j]? =
        some { config := { tj.config with authHeader := some ("Bearer " ++ access) },
               phase := .retrying } := by
      rw [hstep]
      exact List.getElem?_set_self hlen
    have hcount : countRefreshing s'.tasks = countRefreshing s.tasks := by
      rw [hstep]
      exact countP_set_ff _ htj (by rw [hqj]; rfl) rfl
    have hq' : ∀ k ∈ q', ∃ tk, s'.tasks[k]? = some tk ∧ tk.phase = .queued := by
      intro k hk
      obtain ⟨tk, htk, hqk⟩ := hq k (List.mem_cons_of_mem _ hk)
      exact ⟨tk, by rw [htasks_ne k (fun hkj => hjq' (hkj ▸ hk))]; exact htk, hqk⟩
    have hIH := ih s' (List.nodup_cons.mp hnd).2
      (by rw [hfields.2.2.1]; exact hstore) hq'
    obtain ⟨i1, i2, i3, i4, i5, i6, i7, i8, i9⟩ := hIH
    have hfold : (j :: q').foldl (resumeQueued access) s =
        q'.foldl (resumeQueued access) s' := rfl
    rw [hfold]
    refine ⟨?_, ?_, ?_, ?_, ?_, ?_, ?_, ?_, ?_⟩
    · rw [i1, hfields.1]
    · rw [i2, hfields.2.1]
    · rw [i3, hfields.2.2.1]
    · rw [i4, hfields.2.2.2.1]
    · rw [i5, hfields.2.2.2.2.1]
    · rw [i6, hfields.2.2.2.2.2, List.map_cons, List.append_assoc]
      rfl
    · intro k hk
      have hk1 : k ≠ j := fun hh => hk (hh ▸ List.mem_cons_self j q')
      have hk2 : k ∉ q' := fun hh => hk (List.mem_cons_of_mem _ hh)
      rw [i7 k hk2, htasks_ne k hk1]
    · intro k hk
      rcases List.mem_cons.mp hk with hh | hh
      · subst hh
        exact ⟨tj, htj, hqj, by rw [i7 k hjq', htasks_j]⟩
      · obtain ⟨tk, htk, hqk, hres⟩ := i8 k hh
        refine ⟨tk, ?_, hqk, hres⟩
        rw [← htasks_ne k (fun hkj => hjq' (hkj ▸ hh))]
        exact htk
    · rw [i9, hcount]

theorem rejectRun {e : AxiosError} :
    ∀ (q : List Nat) (s : SysState), q.Nodup →
    (∀ j ∈ q, ∃ tj, s.tasks[j]? = some tj ∧ tj.phase = .queued) →
    ((q.foldl (rejectQueued e) s).isRefreshing = s.isRefreshing ∧
     (q.foldl (rejectQueued e) s).failedQueue = s.failedQueue ∧
     (q.foldl (rejectQueued e) s).store = s.store ∧
     (q.foldl (rejectQueued e) s).refreshCalls = s.refreshCalls ∧
     (q.foldl (rejectQueued e) s).redirected = s.redirected ∧
     (q.foldl (rejectQueued e) s).trace =
       s.trace ++ q.map (fun j => Event.queuedRejected j) ∧
     (∀ k, k ∉ q → (q.foldl (rejectQueued e) s).tasks[k]? = s.tasks[k]?) ∧
     (∀ j ∈ q, ∃ tj, s.tasks[j]? = some tj ∧ tj.phase = .queued ∧
       (q.foldl (rejectQueued e) s).tasks[j]? =
         some { tj with phase := .done (.refreshFailed e) }) ∧
     countRefreshing (q.foldl (rejectQueued e) s).tasks =
       countRefreshing s.tasks) := by
  intro q
  induction q with
  | nil =>
    intro s _ _
    simp
  | cons j q' ih =>
    intro s hnd hq
    obtain ⟨tj, htj, hqj⟩ := hq j (List.mem_cons_self j q')
    have hjq' : j ∉ q' := (List.nodup_cons.mp hnd).1
    have hstep := @rejectQueued_eq s j tj e htj
    have hlen : j < s.tasks.length := (List.getElem?_eq_some.mp htj).1
    set s' := rejectQueued e s j with hs'
    have htasks_ne : ∀ k, k ≠ j → s'.tasks[k]? = s.tasks[k]? := by
      intro k hk
      rw [hstep]
      exact List.getElem?_set_ne (fun hh => hk hh.symm)
    have htasks_j : s'.tasks[j]? =
        some { tj with phase := .done (.refreshFailed e) } := by
      rw [hstep]
      exact List.getElem?_set_self hlen
    have hcount : countRefreshing s'.tasks = countRefreshing s.tasks := by
      rw [hstep]
      exact countP_set_ff _ htj (by rw [hqj]; rfl) rfl
    have hq' : ∀ k ∈ q', ∃ tk, s'.tasks[k]? = some tk ∧ tk.phase = .queued := by
      intro k hk
      obtain ⟨tk, htk, hqk⟩ := hq k (List.mem_cons_of_mem _ hk)
      exact ⟨tk, by rw [htasks_ne k (fun hkj => hjq' (hkj ▸ hk))]; exact htk, hqk⟩
    have hIH := ih s' (List.nodup_cons.mp hnd).2 hq'
    obtain ⟨i1, i2, i3, i4, i5, i6, i7, i8, i9⟩ := hIH
    have hfold : (j :: q').foldl (rejectQueued e) s =
        q'.foldl (rejectQueued e) s' := rfl
    rw [hfold]
    refine ⟨?_, ?_, ?_, ?_, ?_, ?_, ?_, ?_, ?_⟩
    · rw [i1, hstep]
    · rw [i2, hstep]
    · rw [i3, hstep]
    · rw [i4, hstep]
    · rw [i5, hstep]
    · rw [i6, hstep, List.map_cons, List.append_assoc]
      rfl
    · intro k hk
      have hk1 : k ≠ j := fun hh => hk (hh ▸ List.mem_cons_self j q')
      have hk2 : k ∉ q' := fun hh => hk (List.mem_cons_of_mem _ hh)
      rw [i7 k hk2, htasks_ne k hk1]
    · intro k hk
      rcases List.mem_cons.mp hk with hh | hh
      · subst hh
        exact ⟨tj, htj, hqj, by rw [i7 k hjq', htasks_j]⟩
      · obtain ⟨tk, htk, hqk, hres⟩ := i8 k hh
        refine ⟨tk, ?_, hqk, hres⟩
        rw [← htasks_ne k (fun hkj => hjq' (hkj ▸ hh))]
        exact htk
    · rw [i9, hcount]

theorem settleOk_eq {s : SysState} {d : Nat} {t : CallerTask}
    {body : RefreshData}
    (h : s.tasks[d]? = some t) (hp : t.phase = .refreshing)
    (hacc : (body.access == "") = false)
    (hq : ∀ j ∈ s.failedQueue, ∃ tj, s.tasks[j]? = some tj ∧ tj.phase = .queued)
    (hnd : s.failedQueue.Nodup) (hd : d ∉ s.failedQueue) :
    ((settleRefreshOk s d body).isRefreshing = false ∧
     (settleRefreshOk s d body).failedQueue = [] ∧
     (settleRefreshOk s d body).store.localAccess = some body.access ∧
     (settleRefreshOk s d body).store.localRefresh =
       (if truthy body.refresh then body.refresh else s.store.localRefresh) ∧
     (settleRefreshOk s d body).store.sessionAccess = s.store.sessionAccess ∧
     (settleRefreshOk s d body).store.sessionRefresh = s.store.sessionRefresh ∧
     (settleRefreshOk s d body).refreshCalls = s.refreshCalls ∧
     (settleRefreshOk s d body).redirected = s.redirected ∧
     (settleRefreshOk s d body).trace =
       s.trace ++ [Event.tokensStored body.access,
         Event.retryIssued d (some ("Bearer " ++ body.access))] ++
       s.failedQueue.map
         (fun j => Event.retryIssued j (some ("Bearer " ++ body.access))) ∧
     (settleRefreshOk s d body).tasks[d]? =
       some { config := { t.config with authHeader := some ("Bearer " ++ body.access) },
              phase := .retrying } ∧
     (∀ j ∈ s.failedQueue, ∃ tj, s.tasks[j]? = some tj ∧ tj.phase = .queued ∧
       (settleRefreshOk s d body).tasks[j]? =
         some { config := { tj.config with authHeader := some ("Bearer " ++ body.access) },
                phase := .retrying }) ∧
     (∀ k, k ≠ d → k ∉ s.failedQueue →
       (settleRefreshOk s d body).tasks[k]? = s.tasks[k]?) ∧
     countRefreshing (settleRefreshOk s d body).tasks + 1 =
       countRefreshing s.tasks) := by
  have hlen : d < s.tasks.length := (List.getElem?_eq_some.mp h).1
  have hguard : (t.phase == CallerPhase.refreshing) = true := by rw [hp]; rfl
  have hstore2 : (if truthy body.refresh
      then { { s.store with localAccess := some body.access } with
             localRefresh := body.refresh }
      else { s.store with localAccess := some body.access }).localAccess =
      some body.access := by
    split <;> rfl
  have hb : requestInterceptor
      (if truthy body.refresh
        then { { s.store with localAccess := some body.access } with
               localRefresh := body.refresh }
        else { s.store with localAccess := some body.access })
      { t.config with authHeader := some ("Bearer " ++ body.access) } =
      { t.config with authHeader := some ("Bearer " ++ body.access) } :=
    requestInterceptor_bearer hstore2 hacc rfl
  have hunfold : settleRefreshOk s d body =
      s.failedQueue.foldl (resumeQueued body.access)
        { s with
          store := (if truthy body.refresh
            then { { s.store with localAccess := some body.access } with
                   localRefresh := body.refresh }
            else { s.store with localAccess := some body.access }),
          tasks := s.tasks.set d
            { config := { t.config with authHeader := some ("Bearer " ++ body.access) },
              phase := .retrying },
          isRefreshing := false,
          failedQueue := [],
          trace := s.trace ++ [Event.tokensStored body.access,
            Event.retryIssued d (some ("Bearer " ++ body.access))] } := by
    simp only [settleRefreshOk, h, hguard, if_true]
    simp only [hb]
  rw [hunfold]
  set s1 : SysState :=
    { s with
      store := (if truthy body.refresh
        then { { s.store with localAccess := some body.access } with
               localRefresh := body.refresh }
        else { s.store with localAccess := some body.access }),
      tasks := s.tasks.set d
        { config := { t.config with authHeader := some ("Bearer " ++ body.access) },
          phase := .retrying },
      isRefreshing := false,
      failedQueue := [],
      trace := s.trace ++ [Event.tokensStored body.access,
        Event.retryIssued d (some ("Bearer " ++ body.access))] } with hs1
  have hq1 : ∀ j ∈ s.failedQueue, ∃ tj, s1.tasks[j]? = some tj ∧
      tj.phase = CallerPhase.queued := by
    intro j hj
    obtain ⟨tj, htj, hqj⟩ := hq j hj
    refine ⟨tj, ?_, hqj⟩
    rw [hs1]
    show (s.tasks.set d _)[j]? = some tj
    rw [List.getElem?_set_ne (show d ≠ j by intro hh; subst hh; exact hd hj)]
    exact htj
  have hIH := resumeRun hacc s.failedQueue s1 hnd (by rw [hs1]; exact hstore2) hq1
  obtain ⟨i1, i2, i3, i4, i5, i6, i7, i8, i9⟩ := hIH
  have hs1d : s1.tasks[d]? =
      some { config := { t.config with authHeader := some ("Bearer " ++ body.access) },
             phase := CallerPhase.retrying } := by
    rw [hs1]
    exact List.getElem?_set_self hlen
  have hcount1 : countRefreshing s1.tasks + 1 = countRefreshing s.tasks := by
    rw [hs1]
    exact countP_set_tf _ h (by rw [hp]; rfl) rfl
  refine ⟨?_, ?_, ?_, ?_, ?_, ?_, ?_, ?_, ?_, ?_, ?_, ?_, ?_⟩
  · rw [i1]
  · rw [i2]
  · rw [i3, hs1]; exact hstore2
  · rw [i3, hs1]
    show (if truthy body.refresh then _ else _ : Storage).localRefresh = _
    split <;> rfl
  · rw [i3, hs1]
    show (if truthy body.refresh then _ else _ : Storage).sessionAccess = _
    split <;> rfl
  · rw [i3, hs1]
    show (if truthy body.refresh then _ else _ : Storage).sessionRefresh = _
    split <;> rfl
  · rw [i4]
  · rw [i5]
  · rw [i6, hs1]
  · rw [i7 d hd, hs1d]
  · intro j hj
    obtain ⟨tj, htj1, hqj, hres⟩ := i8 j hj
    obtain ⟨tj0, htj0, hqj0⟩ := hq j hj
    have heq : s1.tasks[j]? = s.tasks[j]? := by
      rw [hs1]
      exact List.getElem?_set_ne (show d ≠ j by intro hh; subst hh; exact hd hj)
    rw [heq, htj0] at htj1
    injection htj1 with hinj
    subst hinj
    exact ⟨tj0, htj0, hqj0, hres⟩
  · intro k hk hkq
    rw [i7 k hkq, hs1]
    exact List.getElem?_set_ne (fun hh => hk hh.symm)
  · rw [i9, hcount1]

theorem settleErr_eq {s : SysState} {d : Nat} {t : CallerTask} {e : AxiosError}
    (h : s.tasks[d]? = some t) (hp : t.phase = .refreshing)
    (hq : ∀ j ∈ s.failedQueue, ∃ tj, s.tasks[j]? = some tj ∧ tj.phase = .queued)
    (hnd : s.failedQueue.Nodup) (hd : d ∉ s.failedQueue) :
    ((settleRefreshErr s d e).isRefreshing = false ∧
     (settleRefreshErr s d e).failedQueue = [] ∧
     (settleRefreshErr s d e).store =
       { localAccess := none, localRefresh := none,
         sessionAccess := none, sessionRefresh := none } ∧
     (settleRefreshErr s d e).redirected = true ∧
     (settleRefreshErr s d e).refreshCalls = s.refreshCalls ∧
     (settleRefreshErr s d e).trace =
       s.trace ++ s.failedQueue.map (fun j => Event.queuedRejected j) ++
         [Event.storageCleared, Event.redirectLogin] ∧
     (settleRefreshErr s d e).tasks[d]? =
       some { t with phase := .done (.refreshFailed e) } ∧
     (∀ j ∈ s.failedQueue, ∃ tj, s.tasks[j]? = some tj ∧ tj.phase = .queued ∧
       (settleRefreshErr s d e).tasks[j]? =
         some { tj with phase := .done (.refreshFailed e) }) ∧
     (∀ k, k ≠ d → k ∉ s.failedQueue →
       (settleRefreshErr s d e).tasks[k]? = s.tasks[k]?) ∧
     countRefreshing (settleRefreshErr s d e).tasks + 1 =
       countRefreshing s.tasks) := by
  have hguard : (t.phase == CallerPhase.refreshing) = true := by rw [hp]; rfl
  have hIH := @rejectRun e s.failedQueue s hnd hq
  obtain ⟨i1, i2, i3, i4, i5, i6, i7, i8, i9⟩ := hIH
  have hfoldd : (s.failedQueue.foldl (rejectQueued e) s).tasks[d]? = some t := by
    rw [i7 d hd]; exact h
  have hlen : d < (s.failedQueue.foldl (rejectQueued e) s).tasks.length :=
    (List.getElem?_eq_some.mp hfoldd).1
  have hunfold : settleRefreshErr s d e =
      { (s.failedQueue.foldl (rejectQueued e) s) with
        store := { localAccess := none, localRefresh := none,
                   sessionAccess := none, sessionRefresh := none },
        redirected := true,
        failedQueue := [],
        isRefreshing := false,
        tasks := (s.failedQueue.foldl (rejectQueued e) s).tasks.set d
          { t with phase := .done (.refreshFailed e) },
        trace := (s.failedQueue.foldl (rejectQueued e) s).trace ++
          [Event.storageCleared, Event.redirectLogin] } := by
    simp only [settleRefreshErr, h, hguard, if_true]
    rfl
  rw [hunfold]
  refine ⟨rfl, rfl, rfl, rfl, ?_, ?_, ?_, ?_, ?_, ?_⟩
  · exact i4
  · show (s.failedQueue.foldl (rejectQueued e) s).trace ++ _ = _
    rw [i6]
  · show ((s.failedQueue.foldl (rejectQueued e) s).tasks.set d _)[d]? = _
    exact List.getElem?_set_self hlen
  · intro j hj
    obtain ⟨tj, htj, hqj, hres⟩ := i8 j hj
    refine ⟨tj, htj, hqj, ?_⟩
    show ((s.failedQueue.foldl (rejectQueued e) s).tasks.set d _)[j]? = _
    rw [List.getElem?_set_ne (show d ≠ j by intro hh; subst hh; exact hd hj)]
    exact hres
  · intro k hk hkq
    show ((s.failedQueue.foldl (rejectQueued e) s).tasks.set d _)[k]? = _
    rw [List.getElem?_set_ne (fun hh => hk hh.symm), i7 k hkq]
  · show ((s.failedQueue.foldl (rejectQueued e) s).tasks.set d _).countP _ + 1 = _
    rw [countP_set_tf _ hfoldd (by rw [hp]; rfl) rfl]
    exact i9

/-- Bookkeeping invariant tying the failedQueue to the tasks: every queue
entry refers to a task suspended in the queued phase. -/
def QueueOk (s : SysState) : Prop :=
  ∀ j ∈ s.failedQueue, ∃ t, s.tasks[j]? = some t ∧ t.phase = .queued

/-- The coordination invariant of the refresh state machine: the number of
refresh calls in flight equals one exactly while the isRefreshing flag is
set (in particular it never exceeds one), the queue is empty while idle, and
the queue is a duplicate-free list of queued tasks. -/
def RefreshInv (s : SysState) : Prop :=
  countRefreshing s.tasks = (if s.isRefreshing then 1 else 0) ∧
  (s.isRefreshing = false → s.failedQueue = []) ∧
  QueueOk s ∧
  s.failedQueue.Nodup

theorem notin_queue_of_phase_ne {s : SysState} {i : Nat} {t : CallerTask}
    (h : s.tasks[i]? = some t) (hnq : t.phase ≠ .queued) (hQ : QueueOk s) :
    i ∉ s.failedQueue := by
  intro hi
  obtain ⟨t', h', hq'⟩ := hQ i hi
  rw [h] at h'
  injection h' with hh
  exact hnq (hh ▸ hq')

theorem inv_tasks_set {s : SysState} {i : Nat} {t t' : CallerTask}
    (h : s.tasks[i]? = some t) (hf : t.phase.isDriving = false)
    (hf' : t'.phase.isDriving = false) (hnq : t.phase ≠ .queued)
    (hinv : RefreshInv s) :
    RefreshInv { s with tasks := s.tasks.set i t' } := by
  obtain ⟨c1, c2, c3, c4⟩ := hinv
  have hi : i ∉ s.failedQueue := notin_queue_of_phase_ne h hnq c3
  refine ⟨?_, c2, ?_, c4⟩
  · show countRefreshing (s.tasks.set i t') = _
    unfold countRefreshing at c1 ⊢
    rw [countP_set_ff _ h hf hf']
    exact c1
  · intro j hj
    obtain ⟨tj, htj, hqj⟩ := c3 j hj
    refine ⟨tj, ?_, hqj⟩
    show (s.tasks.set i t')[j]? = some tj
    rw [List.getElem?_set_ne (show i ≠ j by intro hh; subst hh; exact hi hj)]
    exact htj

theorem inv_handler {s : SysState} {i : Nat} {t : CallerTask} {e : ApiError}
    (h : s.tasks[i]? = some t) (hf : t.phase.isDriving = false)
    (hnq : t.phase ≠ .queued) (hinv : RefreshInv s) :
    RefreshInv (responseErrorHandler s i e) := by
  obtain ⟨c1, c2, c3, c4⟩ := hinv
  have hi : i ∉ s.failedQueue := notin_queue_of_phase_ne h hnq c3
  have hlen : i < s.tasks.length := (List.getElem?_eq_some.mp h).1
  by_cases h401 : e.status = some 401
  · by_cases hrf : t.config.retryFlag = true
    · rw [handler_passthrough h (Or.inr hrf)]
      exact inv_tasks_set h hf rfl hnq ⟨c1, c2, c3, c4⟩
    · have hrf' : t.config.retryFlag = false := by
        cases hcf : t.config.retryFlag
        · rfl
        · exact absurd hcf hrf
      by_cases hurl : includesSub t.config.url "/auth/" = true
      · rw [handler_authurl h h401 hrf' hurl]
        exact inv_tasks_set h hf rfl hnq ⟨c1, c2, c3, c4⟩
      · have hurl' : includesSub t.config.url "/auth/" = false :=
          Bool.eq_false_iff.mpr hurl
        cases hR : s.isRefreshing
        · cases htok : truthy s.store.localRefresh
          · rw [handler_noToken h h401 hrf' hurl' hR htok]
            have hq0 : s.failedQueue = [] := c2 hR
            refine ⟨?_, fun _ => hq0, ?_, ?_⟩
            · show countRefreshing (s.tasks.set i _) = _
              unfold countRefreshing at c1 ⊢
              rw [countP_set_ff _ h hf rfl]
              simp only [c1, hR]
            · intro j hj
              rw [hq0] at hj
              exact absurd hj (List.not_mem_nil j)
            · show s.failedQueue.Nodup
              exact c4
          · rw [handler_drive h h401 hrf' hurl' hR htok]
            have hq0 : s.failedQueue = [] := c2 hR
            refine ⟨?_, fun hh => absurd hh (by simp), ?_, ?_⟩
            · show countRefreshing (s.tasks.set i _) = _
              unfold countRefreshing at c1 ⊢
              rw [countP_set_ft _ h hf rfl]
              simp [c1, hR]
            · intro j hj
              rw [hq0] at hj
              exact absurd hj (List.not_mem_nil j)
            · show s.failedQueue.Nodup
              exact c4
        · rw [handler_queue h h401 hrf' hurl' hR]
          refine ⟨?_, fun hh => absurd hh (by simp [hR]), ?_, ?_⟩
          · show countRefreshing (s.tasks.set i _) = _
            unfold countRefreshing at c1 ⊢
            rw [countP_set_ff _ h hf rfl]
            simp only [c1, hR]
          · intro j hj
            rcases List.mem_append.mp hj with hj1 | hj2
            · obtain ⟨tj, htj, hqj⟩ := c3 j hj1
              refine ⟨tj, ?_, hqj⟩
              show (s.tasks.set i _)[j]? = some tj
              rw [List.getElem?_set_ne (show i ≠ j by
                intro hh; subst hh; exact hi hj1)]
              exact htj
            · have hji : j = i := by simpa using hj2
              subst hji
              refine ⟨{ t with phase := .queued }, ?_, rfl⟩
              show (s.tasks.set j _)[j]? = _
              exact List.getElem?_set_self hlen
          · show (s.failedQueue ++ [i]).Nodup
            simp [List.nodup_append, c4, hi]
  · rw [handler_passthrough h (Or.inl h401)]
    exact inv_tasks_set h hf rfl hnq ⟨c1, c2, c3, c4⟩

theorem resumeQueued_weak (access : String) (s : SysState) (j : Nat) :
    (resumeQueued access s j).isRefreshing = s.isRefreshing ∧
    (resumeQueued access s j).failedQueue = s.failedQueue ∧
    countRefreshing (resumeQueued access s j).tasks ≤
      countRefreshing s.tasks := by
  unfold resumeQueued
  cases h : s.tasks[j]? with
  | none => exact ⟨rfl, rfl, le_refl _⟩
  | some t =>
    by_cases ha : (access == "") = true
    · simp only [ha, if_true]
      exact ⟨by trivial, by trivial, countP_set_le_of_false _ _ _ _ rfl⟩
    · simp only [Bool.not_eq_true] at ha
      simp only [ha, Bool.false_eq_true, if_false]
      exact ⟨by trivial, by trivial, countP_set_le_of_false _ _ _ _ rfl⟩

theorem resumeFold_weak (access : String) :
    ∀ (q : List Nat) (s : SysState),
    ((q.foldl (resumeQueued access) s).isRefreshing = s.isRefreshing ∧
     (q.foldl (resumeQueued access) s).failedQueue = s.failedQueue ∧
     countRefreshing (q.foldl (resumeQueued access) s).tasks ≤
       countRefreshing s.tasks) := by
  intro q
  induction q with
  | nil => intro s; exact ⟨rfl, rfl, le_refl _⟩
  | cons j q' ih =>
    intro s
    obtain ⟨w1, w2, w3⟩ := resumeQueued_weak access s j
    obtain ⟨v1, v2, v3⟩ := ih (resumeQueued access s j)
    simp only [List.foldl_cons]
    exact ⟨by rw [v1, w1], by rw [v2, w2], le_trans v3 w3⟩

theorem inv_step {s : SysState} (hinv : RefreshInv s) (a : SchedAction) :
    RefreshInv (step s a) := by
  obtain ⟨c1, c2, c3, c4⟩ := hinv
  match a with
  | .arrive i =>
    cases h : s.tasks[i]? with
    | none =>
      have heq : step s (.arrive i) = s := by simp only [step, h]
      rw [heq]
      exact ⟨c1, c2, c3, c4⟩
    | some t =>
      cases hp : t.phase with
      | arrived e =>
        have heq : step s (.arrive i) = responseErrorHandler s i e := by
          simp only [step, h, hp]
        rw [heq]
        exact inv_handler h (by rw [hp]; rfl) (by rw [hp]; intro hh; cases hh)
          ⟨c1, c2, c3, c4⟩
      | queued =>
        have heq : step s (.arrive i) = s := by simp only [step, h, hp]
        rw [heq]; exact ⟨c1, c2, c3, c4⟩
      | refreshing =>
        have heq : step s (.arrive i) = s := by simp only [step, h, hp]
        rw [heq]; exact ⟨c1, c2, c3, c4⟩
      | retrying =>
        have heq : step s (.arrive i) = s := by simp only [step, h, hp]
        rw [heq]; exact ⟨c1, c2, c3, c4⟩
      | stranded =>
        have heq : step s (.arrive i) = s := by simp only [step, h, hp]
        rw [heq]; exact ⟨c1, c2, c3, c4⟩
      | done r =>
        have heq : step s (.arrive i) = s := by simp only [step, h, hp]
        rw [heq]; exact ⟨c1, c2, c3, c4⟩
  | .refreshOk d body =>
    show RefreshInv (settleRefreshOk s d body)
    unfold settleRefreshOk
    cases h : s.tasks[d]? with
    | none => exact ⟨c1, c2, c3, c4⟩
    | some t =>
      by_cases hp : (t.phase == CallerPhase.refreshing) = true
      · simp only [hp, if_true]
        have hpt : t.phase = .refreshing := by
          cases hq : t.phase <;> first | rfl | (rw [hq] at hp; cases hp)
        have hcount1 : countRefreshing s.tasks = 1 := by
          have hpos : 0 < countRefreshing s.tasks := by
            unfold countRefreshing
            rw [List.countP_pos_iff]
            exact ⟨t, List.getElem?_mem h, by rw [hpt]; rfl⟩
          rw [c1] at hpos ⊢
          cases hR : s.isRefreshing
          · rw [hR] at hpos
            exact absurd hpos (by decide)
          · rfl
        have hset0 : ∀ t' : CallerTask, t'.phase = .retrying →
            countRefreshing (s.tasks.set d t') = 0 := by
          intro t' hph
          have hbal := countP_set_tf (fun tk => tk.phase.isDriving) h
            (by show t.phase.isDriving = true; rw [hpt]; rfl)
            (by show t'.phase.isDriving = false; rw [hph]; rfl)
          unfold countRefreshing at hcount1 ⊢
          omega
        have hgen : ∀ s1 : SysState, s1.isRefreshing = false →
            s1.failedQueue = [] → countRefreshing s1.tasks = 0 →
            RefreshInv (s.failedQueue.foldl (resumeQueued body.access) s1) := by
          intro s1 e1 e2 e3
          obtain ⟨w1, w2, w3⟩ := resumeFold_weak body.access s.failedQueue s1
          have hcc : countRefreshing
              (s.failedQueue.foldl (resumeQueued body.access) s1).tasks = 0 := by
            omega
          refine ⟨?_, fun _ => ?_, ?_, ?_⟩
          · rw [w1, e1, hcc]
            rfl
          · rw [w2, e2]
          · intro j hj
            rw [w2, e2] at hj
            exact absurd hj (List.not_mem_nil j)
          · rw [w2, e2]
            exact List.nodup_nil
        apply hgen
        · rfl
        · rfl
        · apply hset0
          rfl
      · simp only [Bool.not_eq_true] at hp
        simp only [hp, Bool.false_eq_true, if_false]
        exact ⟨c1, c2, c3, c4⟩
  | .refreshErr d e =>
    show RefreshInv (settleRefreshErr s d e)
    cases h : s.tasks[d]? with
    | none =>
      unfold settleRefreshErr
      rw [h]
      exact ⟨c1, c2, c3, c4⟩
    | some t =>
      by_cases hp : (t.phase == CallerPhase.refreshing) = true
      · have hpt : t.phase = .refreshing := by
          cases hq : t.phase <;> first | rfl | (rw [hq] at hp; cases hp)
        have hd : d ∉ s.failedQueue :=
          notin_queue_of_phase_ne h (by rw [hpt]; intro hh; cases hh) c3
        have hcount1 : countRefreshing s.tasks = 1 := by
          have hpos : 0 < countRefreshing s.tasks := by
            unfold countRefreshing
            rw [List.countP_pos_iff]
            exact ⟨t, List.getElem?_mem h, by rw [hpt]; rfl⟩
          rw [c1] at hpos ⊢
          cases hR : s.isRefreshing
          · rw [hR] at hpos
            exact absurd hpos (by decide)
          · rfl
        obtain ⟨j1, j2, j3, j4, j5, j6, j7, j8, j9, j10⟩ :=
          settleErr_eq h hpt c3 c4 hd
        refine ⟨?_, fun _ => j2, ?_, ?_⟩
        · rw [j1]
          have h0 : countRefreshing (settleRefreshErr s d e).tasks = 0 := by
            omega
          rw [h0]
          rfl
        · intro j hj
          rw [j2] at hj
          exact absurd hj (List.not_mem_nil j)
        · rw [j2]
          exact List.nodup_nil
      · simp only [Bool.not_eq_true] at hp
        unfold settleRefreshErr
        rw [h]
        simp only [hp, Bool.false_eq_true, if_false]
        exact ⟨c1, c2, c3, c4⟩
  | .retrySettle i r =>
    show RefreshInv (settleRetry s i r)
    unfold settleRetry
    cases h : s.tasks[i]? with
    | none => exact ⟨c1, c2, c3, c4⟩
    | some t =>
      by_cases hp : (t.phase == CallerPhase.retrying) = true
      · have hpt : t.phase = .retrying := by
          cases hq : t.phase <;> first | rfl | (rw [hq] at hp; cases hp)
        simp only [hp, if_true]
        match r with
        | .ok _ =>
          exact inv_tasks_set h (by rw [hpt]; rfl) rfl
            (by rw [hpt]; intro hh; cases hh) ⟨c1, c2, c3, c4⟩
        | .error e =>
          exact inv_handler h (by rw [hpt]; rfl)
            (by rw [hpt]; intro hh; cases hh) ⟨c1, c2, c3, c4⟩
      · simp only [Bool.not_eq_true] at hp
        simp only [hp, Bool.false_eq_true, if_false]
        exact ⟨c1, c2, c3, c4⟩

theorem inv_run {s : SysState} (hinv : RefreshInv s) (acts : List SchedAction) :
    RefreshInv (run s acts) := by
  induction acts generalizing s with
  | nil => exact hinv
  | cons a acts ih => exact ih (inv_step hinv a)

theorem inv_initState (urls : List String) (st : Storage) :
    RefreshInv (initState urls st) := by
  refine ⟨?_, fun _ => rfl, ?_, List.nodup_nil⟩
  · show countRefreshing (urls.map freshCallerTask) = 0
    unfold countRefreshing
    rw [List.countP_map]
    rw [List.countP_eq_zero]
    intro u hu
    simp [Function.comp, freshCallerTask, CallerPhase.isDriving]
  · intro j hj
    exact absurd hj (List.not_mem_nil j)

/-- Task i has freshly observed a 401 on a protected (non-auth-url) request
that has not been retried: exactly the callers the refresh coordinator takes. -/
def ProtectedArrived (s : SysState) (i : Nat) : Prop :=
  ∃ t e, s.tasks[i]? = some t ∧ t.phase = .arrived e ∧ e.status = some 401 ∧
    t.config.retryFlag = false ∧ includesSub t.config.url "/auth/" = false

theorem step_arrive_queue {s : SysState} {i : Nat} {t : CallerTask}
    {e : ApiError} (h : s.tasks[i]? = some t) (hp : t.phase = .arrived e)
    (hst : e.status = some 401) (hrf : t.config.retryFlag = false)
    (hurl : includesSub t.config.url "/auth/" = false)
    (hR : s.isRefreshing = true) :
    step s (.arrive i) =
      { s with tasks := s.tasks.set i { t with phase := .queued },
               failedQueue := s.failedQueue ++ [i] } := by
  rw [step_arrive_eq_handler h hp]
  exact handler_queue h hst hrf hurl hR

theorem run_arrives_queue :
    ∀ (l : List Nat) (s : SysState), s.isRefreshing = true → l.Nodup →
    (∀ i ∈ l, ProtectedArrived s i) →
    ((run s (l.map .arrive)).isRefreshing = true ∧
     (run s (l.map .arrive)).refreshCalls = s.refreshCalls ∧
     (run s (l.map .arrive)).store = s.store ∧
     (run s (l.map .arrive)).redirected = s.redirected ∧
     (run s (l.map .arrive)).trace = s.trace ∧
     (run s (l.map .arrive)).failedQueue = s.failedQueue ++ l ∧
     (∀ k, k ∉ l → (run s (l.map .arrive)).tasks[k]? = s.tasks[k]?) ∧
     (∀ i ∈ l, ∃ t, s.tasks[i]? = some t ∧
       (run s (l.map .arrive)).tasks[i]? = some { t with phase := .queued }) ∧
     countRefreshing (run s (l.map .arrive)).tasks =
       countRefreshing s.tasks) := by
  intro l
  induction l with
  | nil =>
    intro s hR _ _
    exact ⟨hR, rfl, rfl, rfl, rfl, by simp [run], fun k _ => rfl,
      fun i hi => absurd hi (List.not_mem_nil i), rfl⟩
  | cons i l' ih =>
    intro s hR hnd hall
    obtain ⟨t, e, ht, hp, hst, hrf, hurl⟩ := hall i (List.mem_cons_self i l')
    have hil' : i ∉ l' := (List.nodup_cons.mp hnd).1
    have hlen : i < s.tasks.length := (List.getElem?_eq_some.mp ht).1
    have hstep := step_arrive_queue ht hp hst hrf hurl hR
    set s' := step s (.arrive i) with hs'
    have hfold : run s ((i :: l').map .arrive) = run s' (l'.map .arrive) := rfl
    have h'R : s'.isRefreshing = true := by rw [hstep]; exact hR
    have h'tasks_ne : ∀ k, k ≠ i → s'.tasks[k]? = s.tasks[k]? := by
      intro k hk
      rw [hstep]
      exact List.getElem?_set_ne (fun hh => hk hh.symm)
    have h'tasks_i : s'.tasks[i]? = some { t with phase := .queued } := by
      rw [hstep]
      exact List.getElem?_set_self hlen
    have h'all : ∀ k ∈ l', ProtectedArrived s' k := by
      intro k hk
      obtain ⟨tk, ek, htk, hpk, hstk, hrfk, hurlk⟩ :=
        hall k (List.mem_cons_of_mem _ hk)
      exact ⟨tk, ek, by
        rw [h'tasks_ne k (fun hki => hil' (hki ▸ hk))]; exact htk,
        hpk, hstk, hrfk, hurlk⟩
    have hIH := ih s' h'R (List.nodup_cons.mp hnd).2 h'all
    obtain ⟨i1, i2, i3, i4, i5, i6, i7, i8, i9⟩ := hIH
    rw [hfold]
    refine ⟨i1, ?_, ?_, ?_, ?_, ?_, ?_, ?_, ?_⟩
    · rw [i2, hstep]
    · rw [i3, hstep]
    · rw [i4, hstep]
    · rw [i5, hstep]
    · rw [i6, hstep]
      show s.failedQueue ++ [i] ++ l' = _
      rw [List.append_assoc]
      rfl
    · intro k hk
      have hk1 : k ≠ i := fun hh => hk (hh ▸ List.mem_cons_self i l')
      have hk2 : k ∉ l' := fun hh => hk (List.mem_cons_of_mem _ hh)
      rw [i7 k hk2, h'tasks_ne k hk1]
    · intro k hk
      rcases List.mem_cons.mp hk with hh | hh
      · subst hh
        exact ⟨t, ht, by rw [i7 k hil', h'tasks_i]⟩
      · obtain ⟨tk, htk, hres⟩ := i8 k hh
        refine ⟨tk, ?_, hres⟩
        rw [← h'tasks_ne k (fun hki => hil' (hki ▸ hh))]
        exact htk
    · rw [i9]
      show countRefreshing s'.tasks = _
      rw [hstep]
      exact countP_set_ff _ ht (by show t.phase.isDriving = false; rw [hp]; rfl)
        rfl

theorem step_arrive_drive {s : SysState} {i : Nat} {t : CallerTask}
    {e : ApiError} (h : s.tasks[i]? = some t) (hp : t.phase = .arrived e)
    (hst : e.status = some 401) (hrf : t.config.retryFlag = false)
    (hurl : includesSub t.config.url "/auth/" = false)
    (hR : s.isRefreshing = false)
    (htok : truthy s.store.localRefresh = true) :
    step s (.arrive i) =
      { s with isRefreshing := true,
               tasks := s.tasks.set i
                 { config := { t.config with retryFlag := true },
                   phase := .refreshing },
               refreshCalls := s.refreshCalls + 1,
               trace := s.trace ++ [.refreshCallStarted] } := by
  rw [step_arrive_eq_handler h hp]
  exact handler_drive h hst hrf hurl hR htok

theorem initState_tasks (urls : List String) (st : Storage) (i : Nat) :
    (initState urls st).tasks[i]? = (urls[i]?).map freshCallerTask := by
  show (urls.map freshCallerTask)[i]? = _
  rw [List.getElem?_map]

theorem countRefreshing_initState (urls : List String) (st : Storage) :
    countRefreshing (initState urls st).tasks = 0 := by
  show countRefreshing (urls.map freshCallerTask) = 0
  unfold countRefreshing
  rw [List.countP_map, List.countP_eq_zero]
  intro u _
  simp [Function.comp, freshCallerTask, CallerPhase.isDriving]

/-- Claim C1: with N greater-or-equal 2 interleaved protected requests all
observing a 401 before the in-flight refresh settles, the refresh endpoint is
called exactly once: the first failing caller checks and sets isRefreshing in
one synchronous step (one atomic step of the cooperative scheduler, as in the
source, where no await separates the check from the set) and issues the one
refresh call; every later failing caller is appended to failedQueue without a
call; and no reachable state of any schedule has two refresh calls in flight. -/
theorem C1_exactly_once_refresh (urls : List String) (st : Storage)
    (order : List Nat)
    (hurls : ∀ u ∈ urls, includesSub u "/auth/" = false)
    (htok : truthy st.localRefresh = true)
    (hnodup : order.Nodup)
    (hmem : ∀ i ∈ order, i < urls.length)
    (hlen : 2 ≤ order.length) :
    ((run (initState urls st) (order.map .arrive)).refreshCalls = 1 ∧
     countRefreshing (run (initState urls st) (order.map .arrive)).tasks = 1 ∧
     (∀ d rest, order = d :: rest →
       ((run (initState urls st) (order.map .arrive)).failedQueue = rest ∧
        (∃ u, urls[d]? = some u ∧
          (run (initState urls st) (order.map .arrive)).tasks[d]? =
            some { config := { url := u, authHeader := none, retryFlag := true },
                   phase := .refreshing }) ∧
        (∀ j ∈ rest, ∃ u, urls[j]? = some u ∧
          (run (initState urls st) (order.map .arrive)).tasks[j]? =
            some { config := { url := u, authHeader := none, retryFlag := false },
                   phase := .queued }))) ∧
     (∀ acts : List SchedAction,
       countRefreshing (run (initState urls st) acts).tasks ≤ 1)) := by
  have hinvall : ∀ acts : List SchedAction,
      countRefreshing (run (initState urls st) acts).tasks ≤ 1 := by
    intro acts
    have hc := (inv_run (inv_initState urls st) acts).1
    rw [hc]
    split <;> omega
  cases order with
  | nil => exact absurd hlen (by decide)
  | cons d rest =>
    have hd_lt : d < urls.length := hmem d (List.mem_cons_self d rest)
    have hu : urls[d]? = some urls[d] := List.getElem?_eq_getElem hd_lt
    have h0 : (initState urls st).tasks[d]? =
        some (freshCallerTask urls[d]) := by
      rw [initState_tasks, hu]
      rfl
    have hdrest : d ∉ rest := (List.nodup_cons.mp hnodup).1
    have hurld : includesSub urls[d] "/auth/" = false :=
      hurls urls[d] (List.getElem_mem hd_lt)
    have hstep := step_arrive_drive h0 rfl rfl rfl hurld rfl
      (show truthy (initState urls st).store.localRefresh = true from htok)
    set s1 := step (initState urls st) (.arrive d) with hs1
    have h1R : s1.isRefreshing = true := by rw [hstep]
    have h1calls : s1.refreshCalls = 1 := by rw [hstep]; rfl
    have h1store : s1.store = st := by rw [hstep]; rfl
    have h1queue : s1.failedQueue = [] := by rw [hstep]; rfl
    have h1tasks_ne : ∀ k, k ≠ d → s1.tasks[k]? =
        (initState urls st).tasks[k]? := by
      intro k hk
      rw [hstep]
      exact List.getElem?_set_ne (fun hh => hk hh.symm)
    have hlen0 : d < (initState urls st).tasks.length := by
      show d < (urls.map freshCallerTask).length
      rw [List.length_map]
      exact hd_lt
    have h1tasks_d : s1.tasks[d]? =
        some { config := { url := urls[d], authHeader := none, retryFlag := true },
               phase := .refreshing } := by
      rw [hstep]
      show ((initState urls st).tasks.set d _)[d]? = _
      rw [List.getElem?_set_self hlen0]
      rfl
    have h1count : countRefreshing s1.tasks = 1 := by
      rw [hstep]
      show countRefreshing ((initState urls st).tasks.set d _) = 1
      unfold countRefreshing
      rw [countP_set_ft (fun tk => tk.phase.isDriving) h0 (by rfl) (by rfl)]
      have h00 := countRefreshing_initState urls st
      unfold countRefreshing at h00
      rw [h00]
    have h1all : ∀ k ∈ rest, ProtectedArrived s1 k := by
      intro k hk
      have hk_lt : k < urls.length := hmem k (List.mem_cons_of_mem _ hk)
      have hku : urls[k]? = some urls[k] := List.getElem?_eq_getElem hk_lt
      refine ⟨freshCallerTask urls[k], err401, ?_, rfl, rfl, rfl,
        hurls urls[k] (List.getElem_mem hk_lt)⟩
      rw [h1tasks_ne k (fun hh => hdrest (hh ▸ hk)), initState_tasks, hku]
      rfl
    have hrun : run (initState urls st) ((d :: rest).map .arrive) =
        run s1 (rest.map .arrive) := rfl
    have hQ := run_arrives_queue rest s1 h1R (List.nodup_cons.mp hnodup).2 h1all
    obtain ⟨q1, q2, q3, q4, q5, q6, q7, q8, q9⟩ := hQ
    refine ⟨?_, ?_, ?_, hinvall⟩
    · rw [hrun, q2, h1calls]
    · rw [hrun, q9, h1count]
    · intro d' rest' heq
      have hd' : d' = d := by injection heq with hh1 hh2; exact hh1.symm
      have hrest' : rest' = rest := by injection heq with hh1 hh2; exact hh2.symm
      rw [hd', hrest']
      refine ⟨?_, ?_, ?_⟩
      · rw [hrun, q6, h1queue]
        rfl
      · exact ⟨urls[d], hu, by rw [hrun, q7 d hdrest, h1tasks_d]⟩
      · intro j hj
        have hj_lt : j < urls.length := hmem j (List.mem_cons_of_mem _ hj)
        have hju : urls[j]? = some urls[j] := List.getElem?_eq_getElem hj_lt
        obtain ⟨tj, htj, hres⟩ := q8 j hj
        have hj_ne : j ≠ d := fun hh => hdrest (hh ▸ hj)
        rw [h1tasks_ne j hj_ne, initState_tasks, hju] at htj
        injection htj with hinj
        refine ⟨urls[j], hju, ?_⟩
        rw [hrun, hres, ← hinj]
        rfl

theorem settleRetry_ok {s : SysState} {i : Nat} {t : CallerTask}
    (h : s.tasks[i]? = some t) (hp : t.phase = .retrying) :
    step s (.retrySettle i (.ok ())) =
      { s with tasks := s.tasks.set i { t with phase := .done .ok } } := by
  show settleRetry s i (.ok ()) = _
  unfold settleRetry
  rw [h]
  simp only [hp]
  rfl

theorem settleRetry_err_handler {s : SysState} {i : Nat} {t : CallerTask}
    {e : ApiError} (h : s.tasks[i]? = some t) (hp : t.phase = .retrying) :
    step s (.retrySettle i (.error e)) = responseErrorHandler s i e := by
  show settleRetry s i (.error e) = _
  unfold settleRetry
  rw [h]
  simp only [hp]
  rfl

/-- Claim C2 counterexample: two protected requests fail 401; task 0 drives
the refresh, task 1 is queued.  The refresh succeeds and task 1 is retried —
without the retry marker, since only the driver request gets it.  When the
retried request of task 1 fails with 401 again, it re-enters the state
machine and issues a second refresh call (refreshCalls = 2 and task 1 is now
driving a refresh), contradicting the claim that a queued caller retried
after a refresh never triggers a second refresh cycle. -/
theorem C2_counterexample :
    (run (initState ["/jobs/1", "/jobs/2"] storeAB)
      [.arrive 0, .arrive 1, .refreshOk 0 { access := "T2", refresh := none },
       .retrySettle 1 (.error err401)]).refreshCalls = 2 ∧
    (run (initState ["/jobs/1", "/jobs/2"] storeAB)
      [.arrive 0, .arrive 1, .refreshOk 0 { access := "T2", refresh := none },
       .retrySettle 1 (.error err401)]).tasks[1]?.map (fun t => t.phase) =
      some .refreshing := by
  decide

/-- Claim C2 (amended): the no-second-refresh guarantee holds exactly for the
caller that drove the refresh, whose request carries the retry marker.  A
retrying task whose request has retryFlag set that settles with another 401
is finished with that error passed through as a final failure and nothing
else changes — no second refresh call, no queueing.  (A queued caller is
retried without the marker and re-enters the state machine, as the
counterexample shows.) -/
theorem C2_amended_no_refresh_loop_driver_only {s : SysState} {i : Nat}
    {t : CallerTask} {e : ApiError}
    (h : s.tasks[i]? = some t) (hp : t.phase = .retrying)
    (hrf : t.config.retryFlag = true) (hst : e.status = some 401) :
    step s (.retrySettle i (.error e)) =
      { s with tasks := s.tasks.set i { t with phase := .done (.errPassthrough e) } } := by
  rw [settleRetry_err_handler h hp]
  exact handler_passthrough h (Or.inr hrf)

/-- Witness for the amended C2 at a concrete state: one task drives a refresh,
is retried with the new token, fails 401 again, and is finished with the error
passed through while the refresh-call count stays at 1. -/
theorem C2_amended_no_refresh_loop_driver_only_witness :
    ((run (initState ["/jobs/1"] storeAB)
        [.arrive 0, .refreshOk 0 { access := "T2", refresh := none }]).tasks[0]? =
      some { config := { url := "/jobs/1", authHeader := some "Bearer T2",
                         retryFlag := true }, phase := .retrying }) ∧
    step (run (initState ["/jobs/1"] storeAB)
        [.arrive 0, .refreshOk 0 { access := "T2", refresh := none }])
      (.retrySettle 0 (.error err401)) =
      { (run (initState ["/jobs/1"] storeAB)
          [.arrive 0, .refreshOk 0 { access := "T2", refresh := none }]) with
        tasks := (run (initState ["/jobs/1"] storeAB)
          [.arrive 0, .refreshOk 0 { access := "T2", refresh := none }]).tasks.set 0
          { config := { url := "/jobs/1", authHeader := some "Bearer T2",
                        retryFlag := true },
            phase := .done (.errPassthrough err401) } } :=
  ⟨by decide,
    @C2_amended_no_refresh_loop_driver_only
      (run (initState ["/jobs/1"] storeAB)
        [.arrive 0, .refreshOk 0 { access := "T2", refresh := none }]) 0
      { config := { url := "/jobs/1", authHeader := some "Bearer T2",
                    retryFlag := true }, phase := .retrying } err401
      (by decide) rfl rfl rfl⟩

/-- Claim C3: when the in-flight refresh call succeeds (the access value of a
real token response is a nonempty string), the new access token — and the new
refresh token when the response carries one — is stored before any retry is
issued (the tokensStored event precedes every retryIssued event in the
trace); the driver request and every queued request are re-issued carrying
Authorization Bearer of the new access token, the queued ones in FIFO
arrival order; and each caller finally observes exactly the outcome of its
re-issued request (success, or a non-401 failure passed through). -/
theorem C3_refresh_success_resumption {s : SysState} {d : Nat}
    {t : CallerTask} {body : RefreshData}
    (h : s.tasks[d]? = some t) (hp : t.phase = .refreshing)
    (hacc : (body.access == "") = false)
    (hq : ∀ j ∈ s.failedQueue, ∃ tj, s.tasks[j]? = some tj ∧
      tj.phase = .queued)
    (hnd : s.failedQueue.Nodup) (hd : d ∉ s.failedQueue) :
    ((step s (.refreshOk d body)).trace =
       s.trace ++ [Event.tokensStored body.access,
         Event.retryIssued d (some ("Bearer " ++ body.access))] ++
       s.failedQueue.map
         (fun j => Event.retryIssued j (some ("Bearer " ++ body.access))) ∧
     (step s (.refreshOk d body)).store.localAccess = some body.access ∧
     (step s (.refreshOk d body)).store.localRefresh =
       (if truthy body.refresh then body.refresh else s.store.localRefresh) ∧
     (step s (.refreshOk d body)).tasks[d]? =
       some { config := { t.config with
                authHeader := some ("Bearer " ++ body.access) },
              phase := .retrying } ∧
     (∀ j ∈ s.failedQueue, ∃ tj, s.tasks[j]? = some tj ∧
       (step s (.refreshOk d body)).tasks[j]? =
         some { config := { tj.config with
                  authHeader := some ("Bearer " ++ body.access) },
                phase := .retrying }) ∧
     (∀ (s2 : SysState) (i : Nat) (t2 : CallerTask),
       s2.tasks[i]? = some t2 → t2.phase = .retrying →
       (step s2 (.retrySettle i (.ok ()))).tasks[i]? =
         some { t2 with phase := .done .ok }) ∧
     (∀ (s2 : SysState) (i : Nat) (t2 : CallerTask) (e2 : ApiError),
       s2.tasks[i]? = some t2 → t2.phase = .retrying →
       e2.status ≠ some 401 →
       (step s2 (.retrySettle i (.error e2))).tasks[i]? =
         some { t2 with phase := .done (.errPassthrough e2) })) := by
  obtain ⟨k1, k2, k3, k4, k5, k6, k7, k8, k9, k10, k11, k12, k13⟩ :=
    @settleOk_eq s d t body h hp hacc hq hnd hd
  refine ⟨k9, k3, k4, k10, ?_, ?_, ?_⟩
  · intro j hj
    obtain ⟨tj, htj, _, hres⟩ := k11 j hj
    exact ⟨tj, htj, hres⟩
  · intro s2 i t2 h2 hp2
    have := settleRetry_ok h2 hp2
    rw [this]
    show (s2.tasks.set i _)[i]? = _
    exact List.getElem?_set_self (List.getElem?_eq_some.mp h2).1
  · intro s2 i t2 e2 h2 hp2 hne
    rw [settleRetry_err_handler h2 hp2, handler_passthrough h2 (Or.inl hne)]
    show (s2.tasks.set i _)[i]? = _
    exact List.getElem?_set_self (List.getElem?_eq_some.mp h2).1

/-- Witness for C3 at a concrete three-caller state: task 0 drives, tasks 1
and 2 are queued in that order; the refresh resolves with a rotated pair. -/
theorem C3_refresh_success_resumption_witness :
    ((run (initState ["/jobs/1", "/jobs/2", "/jobs/3"] storeAB)
        [.arrive 0, .arrive 1, .arrive 2]).tasks[0]? =
      some { config := { url := "/jobs/1", authHeader := none,
                         retryFlag := true }, phase := .refreshing }) ∧
    (run (initState ["/jobs/1", "/jobs/2", "/jobs/3"] storeAB)
        [.arrive 0, .arrive 1, .arrive 2]).failedQueue = [1, 2] ∧
    (step (run (initState ["/jobs/1", "/jobs/2", "/jobs/3"] storeAB)
        [.arrive 0, .arrive 1, .arrive 2])
      (.refreshOk 0 { access := "T2", refresh := some "R2" })).trace =
      (run (initState ["/jobs/1", "/jobs/2", "/jobs/3"] storeAB)
        [.arrive 0, .arrive 1, .arrive 2]).trace ++
      [Event.tokensStored "T2", Event.retryIssued 0 (some "Bearer T2")] ++
      [1, 2].map (fun j => Event.retryIssued j (some "Bearer T2")) := by
  have hq : ∀ j ∈ (run (initState ["/jobs/1", "/jobs/2", "/jobs/3"] storeAB)
      [.arrive 0, .arrive 1, .arrive 2]).failedQueue, ∃ tj,
      (run (initState ["/jobs/1", "/jobs/2", "/jobs/3"] storeAB)
        [.arrive 0, .arrive 1, .arrive 2]).tasks[j]? = some tj ∧
      tj.phase = .queued := by
    intro j hj
    have hfq : (run (initState ["/jobs/1", "/jobs/2", "/jobs/3"] storeAB)
        [.arrive 0, .arrive 1, .arrive 2]).failedQueue = [1, 2] := by decide
    rw [hfq] at hj
    fin_cases hj
    · exact ⟨{ config := { url := "/jobs/2", authHeader := none,
                           retryFlag := false }, phase := .queued },
        by decide, rfl⟩
    · exact ⟨{ config := { url := "/jobs/3", authHeader := none,
                           retryFlag := false }, phase := .queued },
        by decide, rfl⟩
  have hmain := @C3_refresh_success_resumption
    (run (initState ["/jobs/1", "/jobs/2", "/jobs/3"] storeAB)
      [.arrive 0, .arrive 1, .arrive 2]) 0
    { config := { url := "/jobs/1", authHeader := none, retryFlag := true },
      phase := .refreshing }
    { access := "T2", refresh := some "R2" }
    (by decide) rfl rfl hq (by decide) (by decide)
  refine ⟨by decide, by decide, ?_⟩
  have htr := hmain.1
  rw [htr]
  decide

/-- Claim C4: when the in-flight refresh call fails (explicit rejection or
transport error, both reaching the catch as a rejection value), both token
values are removed from every storage location (localStorage and
sessionStorage), every queued caller is rejected with that refresh failure
(none resolved, none dropped), the driver promise is rejected with the same
failure, and the session-ended signal (redirect to the login view) is
emitted. -/
theorem C4_refresh_failure_cleanup {s : SysState} {d : Nat}
    {t : CallerTask} {e : AxiosError}
    (h : s.tasks[d]? = some t) (hp : t.phase = .refreshing)
    (hq : ∀ j ∈ s.failedQueue, ∃ tj, s.tasks[j]? = some tj ∧
      tj.phase = .queued)
    (hnd : s.failedQueue.Nodup) (hd : d ∉ s.failedQueue) :
    ((step s (.refreshErr d e)).store =
       { localAccess := none, localRefresh := none,
         sessionAccess := none, sessionRefresh := none } ∧
     (step s (.refreshErr d e)).redirected = true ∧
     (step s (.refreshErr d e)).failedQueue = [] ∧
     (step s (.refreshErr d e)).tasks[d]? =
       some { t with phase := .done (.refreshFailed e) } ∧
     (∀ j ∈ s.failedQueue, ∃ tj, s.tasks[j]? = some tj ∧
       (step s (.refreshErr d e)).tasks[j]? =
         some { tj with phase := .done (.refreshFailed e) }) ∧
     (step s (.refreshErr d e)).trace =
       s.trace ++ s.failedQueue.map (fun j => Event.queuedRejected j) ++
         [Event.storageCleared, Event.redirectLogin]) := by
  obtain ⟨k1, k2, k3, k4, k5, k6, k7, k8, k9, k10⟩ :=
    @settleErr_eq s d t e h hp hq hnd hd
  refine ⟨k3, k4, k2, k7, ?_, k6⟩
  intro j hj
  obtain ⟨tj, htj, _, hres⟩ := k8 j hj
  exact ⟨tj, htj, hres⟩

/-- Witness for C4 at a concrete three-caller state with a queued pair. -/
theorem C4_refresh_failure_cleanup_witness :
    ((run (initState ["/jobs/1", "/jobs/2", "/jobs/3"] storeAB)
        [.arrive 0, .arrive 1, .arrive 2]).tasks[0]? =
      some { config := { url := "/jobs/1", authHeader := none,
                         retryFlag := true }, phase := .refreshing }) ∧
    (step (run (initState ["/jobs/1", "/jobs/2", "/jobs/3"] storeAB)
        [.arrive 0, .arrive 1, .arrive 2])
      (.refreshErr 0 { message := "token_not_valid" })).store =
      { localAccess := none, localRefresh := none,
        sessionAccess := none, sessionRefresh := none } ∧
    (step (run (initState ["/jobs/1", "/jobs/2", "/jobs/3"] storeAB)
        [.arrive 0, .arrive 1, .arrive 2])
      (.refreshErr 0 { message := "token_not_valid" })).redirected = true := by
  have hq : ∀ j ∈ (run (initState ["/jobs/1", "/jobs/2", "/jobs/3"] storeAB)
      [.arrive 0, .arrive 1, .arrive 2]).failedQueue, ∃ tj,
      (run (initState ["/jobs/1", "/jobs/2", "/jobs/3"] storeAB)
        [.arrive 0, .arrive 1, .arrive 2]).tasks[j]? = some tj ∧
      tj.phase = .queued := by
    intro j hj
    have hfq : (run (initState ["/jobs/1", "/jobs/2", "/jobs/3"] storeAB)
        [.arrive 0, .arrive 1, .arrive 2]).failedQueue = [1, 2] := by decide
    rw [hfq] at hj
    fin_cases hj
    · exact ⟨{ config := { url := "/jobs/2", authHeader := none,
                           retryFlag := false }, phase := .queued },
        by decide, rfl⟩
    · exact ⟨{ config := { url := "/jobs/3", authHeader := none,
                           retryFlag := false }, phase := .queued },
        by decide, rfl⟩
  have hmain := @C4_refresh_failure_cleanup
    (run (initState ["/jobs/1", "/jobs/2", "/jobs/3"] storeAB)
      [.arrive 0, .arrive 1, .arrive 2]) 0
    { config := { url := "/jobs/1", authHeader := none, retryFlag := true },
      phase := .refreshing }
    { message := "token_not_valid" }
    (by decide) rfl hq (by decide) (by decide)
  exact ⟨by decide, hmain.1, hmain.2.1⟩

/-- Claim C5 counterexample: the refresh call settles successfully but with a
falsy access value (the empty string).  processQueue resolves a queued entry
only when the token is truthy and rejects only when the error is truthy, so
the queued caller of task 1 is neither resumed nor rejected: its phase is
stranded (its promise never settles) even though the queue itself was
emptied.  This refutes the claim for "any outcome value". -/
theorem C5_counterexample :
    (run (initState ["/jobs/1", "/jobs/2"] storeAB)
      [.arrive 0, .arrive 1,
       .refreshOk 0 { access := "", refresh := none }]).failedQueue = [] ∧
    (run (initState ["/jobs/1", "/jobs/2"] storeAB)
      [.arrive 0, .arrive 1,
       .refreshOk 0 { access := "", refresh := none }]).tasks[1]?.map
        (fun t => t.phase) = some .stranded := by
  decide

/-- Claim C5 (amended): whenever the in-flight refresh settles, the queue is
emptied; and every queued entry is resumed when the settlement is a success
whose access value is truthy (a nonempty string), and rejected when the
settlement is a failure.  On a success with a falsy access value the queue is
still emptied but its entries are dropped unresolved. -/
theorem C5_amended_queue_drained {s : SysState} {d : Nat} {t : CallerTask}
    (h : s.tasks[d]? = some t) (hp : t.phase = .refreshing)
    (hq : ∀ j ∈ s.failedQueue, ∃ tj, s.tasks[j]? = some tj ∧
      tj.phase = .queued)
    (hnd : s.failedQueue.Nodup) (hd : d ∉ s.failedQueue) :
    ((∀ body : RefreshData, (step s (.refreshOk d body)).failedQueue = []) ∧
     (∀ body : RefreshData, (body.access == "") = false →
       ∀ j ∈ s.failedQueue,
         (step s (.refreshOk d body)).tasks[j]?.map (fun tk => tk.phase) =
           some .retrying) ∧
     (∀ e : AxiosError, (step s (.refreshErr d e)).failedQueue = [] ∧
       ∀ j ∈ s.failedQueue,
         (step s (.refreshErr d e)).tasks[j]?.map (fun tk => tk.phase) =
           some (.done (.refreshFailed e)))) := by
  refine ⟨?_, ?_, ?_⟩
  · intro body
    show (settleRefreshOk s d body).failedQueue = []
    unfold settleRefreshOk
    rw [h]
    simp only [hp, beq_self_eq_true, if_true]
    have hgen : ∀ s1 : SysState, s1.failedQueue = [] →
        (s.failedQueue.foldl (resumeQueued body.access) s1).failedQueue = [] := by
      intro s1 e1
      rw [(resumeFold_weak body.access s.failedQueue s1).2.1, e1]
    apply hgen
    rfl
  · intro body hacc j hj
    obtain ⟨k1, k2, k3, k4, k5, k6, k7, k8, k9, k10, k11, k12, k13⟩ :=
      @settleOk_eq s d t body h hp hacc hq hnd hd
    obtain ⟨tj, _, _, hres⟩ := k11 j hj
    show (settleRefreshOk s d body).tasks[j]?.map (fun tk => tk.phase) = _
    rw [hres]
    rfl
  · intro e
    obtain ⟨k1, k2, k3, k4, k5, k6, k7, k8, k9, k10⟩ :=
      @settleErr_eq s d t e h hp hq hnd hd
    refine ⟨k2, ?_⟩
    intro j hj
    obtain ⟨tj, _, _, hres⟩ := k8 j hj
    show (settleRefreshErr s d e).tasks[j]?.map (fun tk => tk.phase) = _
    rw [hres]
    rfl

/-- Witness for the amended C5 at the concrete three-caller state. -/
theorem C5_amended_queue_drained_witness :
    ((run (initState ["/jobs/1", "/jobs/2", "/jobs/3"] storeAB)
        [.arrive 0, .arrive 1, .arrive 2]).tasks[0]? =
      some { config := { url := "/jobs/1", authHeader := none,
                         retryFlag := true }, phase := .refreshing }) ∧
    (step (run (initState ["/jobs/1", "/jobs/2", "/jobs/3"] storeAB)
        [.arrive 0, .arrive 1, .arrive 2])
      (.refreshOk 0 { access := "T2", refresh := none })).failedQueue = [] ∧
    (∀ j ∈ (run (initState ["/jobs/1", "/jobs/2", "/jobs/3"] storeAB)
        [.arrive 0, .arrive 1, .arrive 2]).failedQueue,
      (step (run (initState ["/jobs/1", "/jobs/2", "/jobs/3"] storeAB)
          [.arrive 0, .arrive 1, .arrive 2])
        (.refreshErr 0 { message := "nope" })).tasks[j]?.map
          (fun tk => tk.phase) =
        some (.done (.refreshFailed { message := "nope" }))) := by
  have hq : ∀ j ∈ (run (initState ["/jobs/1", "/jobs/2", "/jobs/3"] storeAB)
      [.arrive 0, .arrive 1, .arrive 2]).failedQueue, ∃ tj,
      (run (initState ["/jobs/1", "/jobs/2", "/jobs/3"] storeAB)
        [.arrive 0, .arrive 1, .arrive 2]).tasks[j]? = some tj ∧
      tj.phase = .queued := by
    intro j hj
    have hfq : (run (initState ["/jobs/1", "/jobs/2", "/jobs/3"] storeAB)
        [.arrive 0, .arrive 1, .arrive 2]).failedQueue = [1, 2] := by decide
    rw [hfq] at hj
    fin_cases hj
    · exact ⟨{ config := { url := "/jobs/2", authHeader := none,
                           retryFlag := false }, phase := .queued },
        by decide, rfl⟩
    · exact ⟨{ config := { url := "/jobs/3", authHeader := none,
                           retryFlag := false }, phase := .queued },
        by decide, rfl⟩
  have hmain := @C5_amended_queue_drained
    (run (initState ["/jobs/1", "/jobs/2", "/jobs/3"] storeAB)
      [.arrive 0, .arrive 1, .arrive 2]) 0
    { config := { url := "/jobs/1", authHeader := none, retryFlag := true },
      phase := .refreshing }
    (by decide) rfl hq (by decide) (by decide)
  exact ⟨by decide, hmain.1 { access := "T2", refresh := none },
    (hmain.2.2 { message := "nope" }).2⟩

/-- Claim C6 counterexample: a 401 on the url "/auth/user/" — a
token-protected endpoint that is NOT on the three-pattern allow-list
(isAuthEndpoint is false for it) and has not been retried — is nevertheless
not handed to the refresh coordinator: the response-side exemption tests the
substring "/auth/", so the error is propagated unchanged with no refresh
call, refuting the claimed if-and-only-if with the allow-list as the
exemption. -/
theorem C6_counterexample :
    isAuthEndpoint "/auth/user/" = false ∧
    (run (initState ["/auth/user/"] storeAB) [.arrive 0]).refreshCalls = 0 ∧
    (run (initState ["/auth/user/"] storeAB) [.arrive 0]).isRefreshing =
      false ∧
    (run (initState ["/auth/user/"] storeAB) [.arrive 0]).tasks[0]?.map
      (fun t => t.phase) = some (.done (.errPassthrough err401)) := by
  decide

/-- Claim C6 (amended): a failed response enters the refresh coordinator if
and only if its status is 401, the request has not been retried after a
refresh (no retry marker), and its url does not contain the substring
"/auth/" (a broader exemption than the login/registration/refresh
allow-list); every other failure — transport errors with no response,
non-401 statuses, 401s on retried requests, and 401s on urls containing
"/auth/" — is propagated to the caller unchanged, the state otherwise
untouched. -/
theorem C6_amended_response_classification {s : SysState} {i : Nat}
    {t : CallerTask} {e : ApiError} (h : s.tasks[i]? = some t) :
    ((e.status ≠ some 401 ∨ t.config.retryFlag = true →
       responseErrorHandler s i e =
         { s with tasks :=
             s.tasks.set i { t with phase := .done (.errPassthrough e) } }) ∧
     (e.status = some 401 → t.config.retryFlag = false →
       includesSub t.config.url "/auth/" = true →
       responseErrorHandler s i e =
         { s with tasks :=
             s.tasks.set i { t with phase := .done (.errPassthrough e) } }) ∧
     (e.status = some 401 → t.config.retryFlag = false →
       includesSub t.config.url "/auth/" = false →
       ((s.isRefreshing = true →
          responseErrorHandler s i e =
            { s with tasks := s.tasks.set i { t with phase := .queued },
                     failedQueue := s.failedQueue ++ [i] }) ∧
        (s.isRefreshing = false → truthy s.store.localRefresh = true →
          responseErrorHandler s i e =
            { s with isRefreshing := true,
                     tasks := s.tasks.set i
                       { config := { t.config with retryFlag := true },
                         phase := .refreshing },
                     refreshCalls := s.refreshCalls + 1,
                     trace := s.trace ++ [.refreshCallStarted] }) ∧
        (s.isRefreshing = false → truthy s.store.localRefresh = false →
          responseErrorHandler s i e =
            { s with isRefreshing := false,
                     store := clearTokens s.store,
                     redirected := true,
                     tasks := s.tasks.set i
                       { config := { t.config with retryFlag := true },
                         phase := .done (.errPassthrough e) },
                     trace := s.trace ++
                       [.storageCleared, .redirectLogin] })))) := by
  refine ⟨?_, ?_, ?_⟩
  · intro hcond
    exact handler_passthrough h hcond
  · intro hst hrf hurl
    exact handler_authurl h hst hrf hurl
  · intro hst hrf hurl
    exact ⟨fun hR => handler_queue h hst hrf hurl hR,
      fun hR htok => handler_drive h hst hrf hurl hR htok,
      fun hR htok => handler_noToken h hst hrf hurl hR htok⟩

/-- Witness for the amended C6: a transport error (no response, hence no
status) on a concrete pending request is propagated unchanged. -/
theorem C6_amended_response_classification_witness :
    ((initState ["/jobs/1"] storeAB).tasks[0]? =
      some (freshCallerTask "/jobs/1")) ∧
    responseErrorHandler (initState ["/jobs/1"] storeAB) 0
        { status := none, tag := "network error" } =
      { (initState ["/jobs/1"] storeAB) with
        tasks := (initState ["/jobs/1"] storeAB).tasks.set 0
          { freshCallerTask "/jobs/1" with
            phase := .done (.errPassthrough
              { status := none, tag := "network error" }) } } :=
  ⟨by decide,
    (@C6_amended_response_classification (initState ["/jobs/1"] storeAB) 0
      (freshCallerTask "/jobs/1") { status := none, tag := "network error" }
      (by decide)).1 (Or.inl (by decide))⟩

/-- Claim C7: the request interceptor is a total function on request
descriptors (attachment never fails).  For a url matching the
login/registration/refresh patterns the descriptor is returned unchanged —
no Authorization header is attached even when an access token is present;
for any other url, a truthy stored access token is attached as
Authorization Bearer token, and with no (or an empty) stored token the
descriptor passes through unmodified. -/
theorem C7_request_interceptor_attachment (st : Storage)
    (cfg : RequestConfig) :
    ((isAuthEndpoint cfg.url = true → requestInterceptor st cfg = cfg) ∧
     (isAuthEndpoint cfg.url = false →
       ∀ tok : String, getAccessToken st = some tok → (tok == "") = false →
       requestInterceptor st cfg =
         { cfg with authHeader := some ("Bearer " ++ tok) }) ∧
     (isAuthEndpoint cfg.url = false → truthy (getAccessToken st) = false →
       requestInterceptor st cfg = cfg)) := by
  refine ⟨?_, ?_, ?_⟩
  · intro hauth
    unfold requestInterceptor
    rw [hauth]
    rfl
  · intro hauth tok htok hne
    unfold requestInterceptor
    rw [hauth, htok]
    simp only [hne, Bool.false_eq_true, if_false]
  · intro hauth htok
    unfold requestInterceptor
    rw [hauth]
    cases hacc : getAccessToken st with
    | none => rfl
    | some tok =>
      rw [hacc] at htok
      have : (tok == "") = true := by
        unfold truthy at htok
        simpa using htok
      simp only [this, if_true]
      rfl

/-- Witness for C7: with a stale token in the store, a login request gets no
header attached while a protected request gets the bearer header. -/
theorem C7_request_interceptor_attachment_witness :
    isAuthEndpoint "/auth/login/" = true ∧
    requestInterceptor storeAB
        { url := "/auth/login/", authHeader := none, retryFlag := false } =
      { url := "/auth/login/", authHeader := none, retryFlag := false } ∧
    isAuthEndpoint "/jobs/" = false ∧
    requestInterceptor storeAB
        { url := "/jobs/", authHeader := none, retryFlag := false } =
      { url := "/jobs/", authHeader := some "Bearer A1", retryFlag := false } :=
  ⟨by decide,
    (C7_request_interceptor_attachment storeAB
      { url := "/auth/login/", authHeader := none, retryFlag := false }).1
      (by decide),
    by decide,
    (C7_request_interceptor_attachment storeAB
      { url := "/jobs/", authHeader := none, retryFlag := false }).2.1
      (by decide) "A1" rfl (by decide)⟩

/-- Claim C8: a successful refresh whose response carries no (or an empty)
rotated refresh token leaves the stored refresh token unchanged and replaces
the access token wholesale with the access value of the response; when the
response carries a truthy rotated refresh token, both stored values are
replaced.  This holds on the interceptor refresh path (the conditional
setItem of refresh_token) and on the auth-service refreshAccessToken path
(setTokens with newRefresh-or-old-refresh). -/
theorem C8_refresh_token_rotation {s : SysState} {d : Nat} {t : CallerTask}
    {body : RefreshData}
    (h : s.tasks[d]? = some t) (hp : t.phase = .refreshing)
    (hacc : (body.access == "") = false)
    (hq : ∀ j ∈ s.failedQueue, ∃ tj, s.tasks[j]? = some tj ∧
      tj.phase = .queued)
    (hnd : s.failedQueue.Nodup) (hd : d ∉ s.failedQueue) :
    (((step s (.refreshOk d body)).store.localAccess = some body.access) ∧
     (truthy body.refresh = false →
       (step s (.refreshOk d body)).store.localRefresh =
         s.store.localRefresh) ∧
     (truthy body.refresh = true →
       (step s (.refreshOk d body)).store.localRefresh = body.refresh) ∧
     (∀ (st : Storage) (r : String)
        (call : String → Except AxiosError RefreshData) (dta : RefreshData),
       st.localRefresh = some r → (r == "") = false → call r = .ok dta →
       ((refreshAccessToken st call).2.localAccess = some dta.access ∧
        (truthy dta.refresh = false →
          (refreshAccessToken st call).2.localRefresh = some r) ∧
        (truthy dta.refresh = true →
          (refreshAccessToken st call).2.localRefresh = dta.refresh) ∧
        (refreshAccessToken st call).1 = some dta.access))) := by
  obtain ⟨k1, k2, k3, k4, k5, k6, k7, k8, k9, k10, k11, k12, k13⟩ :=
    @settleOk_eq s d t body h hp hacc hq hnd hd
  refine ⟨k3, ?_, ?_, ?_⟩
  · intro htr
    show (settleRefreshOk s d body).store.localRefresh = _
    rw [k4, htr]
    rfl
  · intro htr
    show (settleRefreshOk s d body).store.localRefresh = _
    rw [k4, htr]
    rfl
  · intro st r call dta hr hrne hcall
    have hun : refreshAccessToken st call =
        (some dta.access,
          setTokens st dta.access
            (if truthy dta.refresh then dta.refresh.getD "" else r)) := by
      unfold refreshAccessToken getRefreshToken
      rw [hr]
      simp only [hrne, Bool.false_eq_true, if_false, hcall]
    rw [hun]
    refine ⟨rfl, ?_, ?_, rfl⟩
    · intro htr
      rw [htr]
      rfl
    · intro htr
      show some (if truthy dta.refresh then dta.refresh.getD "" else r) = _
      rw [htr]
      cases hdr : dta.refresh with
      | none => rw [hdr] at htr; cases htr
      | some nr => rfl

/-- Witness for C8: a refresh response without a rotated token keeps the old
refresh token both in the interceptor path and in refreshAccessToken. -/
theorem C8_refresh_token_rotation_witness :
    ((run (initState ["/jobs/1"] storeAB) [.arrive 0]).tasks[0]? =
      some { config := { url := "/jobs/1", authHeader := none,
                         retryFlag := true }, phase := .refreshing }) ∧
    (step (run (initState ["/jobs/1"] storeAB) [.arrive 0])
      (.refreshOk 0 { access := "T2", refresh := none })).store.localRefresh =
      some "R1" ∧
    (refreshAccessToken storeAB
      (fun _ => .ok { access := "T2", refresh := none })).2.localRefresh =
      some "R1" := by
  have hmain := @C8_refresh_token_rotation
    (run (initState ["/jobs/1"] storeAB) [.arrive 0]) 0
    { config := { url := "/jobs/1", authHeader := none, retryFlag := true },
      phase := .refreshing }
    { access := "T2", refresh := none }
    (by decide) rfl (by decide)
    (by
      intro j hj
      have hfq : (run (initState ["/jobs/1"] storeAB)
          [.arrive 0]).failedQueue = [] := by decide
      rw [hfq] at hj
      exact absurd hj (List.not_mem_nil j))
    (by decide) (by decide)
  refine ⟨by decide, ?_, ?_⟩
  · have := hmain.2.1 (by decide)
    rw [this]
    decide
  · have := (hmain.2.2.2 storeAB "R1"
      (fun _ => .ok { access := "T2", refresh := none })
      { access := "T2", refresh := none } rfl (by decide) rfl).2.1 (by decide)
    rw [this]

/-- Claim C9: clearTokens removes both token values from every storage
location the implementation uses — localStorage and sessionStorage — it is
idempotent (clearing twice, or clearing an empty store, is the same as
clearing once, and as a total function it produces no error), and after any
clear both getters return the absent marker. -/
theorem C9_clear_tokens_idempotent (st : Storage) :
    getAccessToken (clearTokens st) = none ∧
    getRefreshToken (clearTokens st) = none ∧
    (clearTokens st).localAccess = none ∧
    (clearTokens st).localRefresh = none ∧
    (clearTokens st).sessionAccess = none ∧
    (clearTokens st).sessionRefresh = none ∧
    clearTokens (clearTokens st) = clearTokens st ∧
    clearTokens
      { localAccess := none, localRefresh := none,
        sessionAccess := none, sessionRefresh := none } =
      { localAccess := none, localRefresh := none,
        sessionAccess := none, sessionRefresh := none } :=
  ⟨rfl, rfl, rfl, rfl, rfl, rfl, rfl, rfl⟩

/-- Claim C10: endpoint classification is by substring containment over the
full request url, not by exact path or prefix match.  Any request whose url
contains one of the three auth patterns anywhere is sent with its descriptor
unchanged (no Authorization header attached even with a token present), and
a 401 for any non-retried request whose url contains "/auth/" anywhere —
including the token-protected "/auth/user/" and "/auth/logout/", which are
not on the attachment allow-list — is never handed to the refresh
coordinator and propagates to the caller unchanged. -/
theorem C10_substring_classification :
    ((∀ (st : Storage) (cfg : RequestConfig),
       (includesSub cfg.url "/auth/login" = true ∨
        includesSub cfg.url "/auth/registration" = true ∨
        includesSub cfg.url "/auth/token/refresh" = true) →
       requestInterceptor st cfg = cfg) ∧
     (∀ (s : SysState) (i : Nat) (t : CallerTask) (e : ApiError),
       s.tasks[i]? = some t → e.status = some 401 →
       t.config.retryFlag = false →
       includesSub t.config.url "/auth/" = true →
       responseErrorHandler s i e =
         { s with tasks :=
             s.tasks.set i { t with phase := .done (.errPassthrough e) } }) ∧
     isAuthEndpoint "/x/auth/login?next=1" = true ∧
     includesSub "/auth/user/" "/auth/" = true ∧
     includesSub "/auth/logout/" "/auth/" = true ∧
     isAuthEndpoint "/auth/user/" = false ∧
     isAuthEndpoint "/auth/logout/" = false) := by
  refine ⟨?_, ?_, by decide, by decide, by decide, by decide, by decide⟩
  · intro st cfg hsub
    unfold requestInterceptor
    have hauth : isAuthEndpoint cfg.url = true := by
      unfold isAuthEndpoint
      rcases hsub with hh | hh | hh <;> simp [hh]
    rw [hauth]
    rfl
  · intro s i t e h hst hrf hurl
    exact handler_authurl h hst hrf hurl

/-- Witness for C10: the substring matcher fires on a url where the pattern
is neither a prefix nor the whole path, and a 401 on "/auth/user/" passes
through unchanged. -/
theorem C10_substring_classification_witness :
    requestInterceptor storeAB
        { url := "/x/auth/login?next=1", authHeader := none,
          retryFlag := false } =
      { url := "/x/auth/login?next=1", authHeader := none,
        retryFlag := false } ∧
    responseErrorHandler (initState ["/auth/user/"] storeAB) 0 err401 =
      { (initState ["/auth/user/"] storeAB) with
        tasks := (initState ["/auth/user/"] storeAB).tasks.set 0
          { freshCallerTask "/auth/user/" with
            phase := .done (.errPassthrough err401) } } :=
  ⟨C10_substring_classification.1 storeAB
      { url := "/x/auth/login?next=1", authHeader := none, retryFlag := false }
      (Or.inl (by decide)),
    C10_substring_classification.2.1 (initState ["/auth/user/"] storeAB) 0
      (freshCallerTask "/auth/user/") err401 (by decide) rfl rfl (by decide)⟩

/-- Witness for C1: two concrete protected requests, scheduled second-first,
still produce exactly one refresh call with one driver and one queued task. -/
theorem C1_exactly_once_refresh_witness :
    (∀ u ∈ ["/jobs/1", "/jobs/2"], includesSub u "/auth/" = false) ∧
    truthy storeAB.localRefresh = true ∧
    ([1, 0] : List Nat).Nodup ∧
    (∀ i ∈ ([1, 0] : List Nat),
      i < (["/jobs/1", "/jobs/2"] : List String).length) ∧
    2 ≤ ([1, 0] : List Nat).length ∧
    (run (initState ["/jobs/1", "/jobs/2"] storeAB)
      ([1, 0].map .arrive)).refreshCalls = 1 ∧
    countRefreshing (run (initState ["/jobs/1", "/jobs/2"] storeAB)
      ([1, 0].map .arrive)).tasks = 1 :=
  ⟨by decide, by decide, by decide, by decide, by decide,
    (C1_exactly_once_refresh ["/jobs/1", "/jobs/2"] storeAB [1, 0]
      (by decide) (by decide) (by decide) (by decide) (by decide)).1,
    (C1_exactly_once_refresh ["/jobs/1", "/jobs/2"] storeAB [1, 0]
      (by decide) (by decide) (by decide) (by decide) (by decide)).2.1⟩
